import Mathlib

/-!
Verification of the photo-story core: temporal clustering, chapter
generation, story-arc detection and pattern detection, embedded from
`backend/app/services/ai_story_arc_detector.py`,
`backend/app/services/story_arc_detector.py`,
`backend/app/services/chapter_generator.py`,
`backend/app/routers/patterns.py`.

Capture timestamps are modelled as integers (seconds); Python's
`(a - b).days` on a `timedelta` floors toward negative infinity, which is
`Int.fdiv` by 86400.  Averages and confidence scores are modelled over `ℚ`
(exact arithmetic in place of IEEE floats; no claim here depends on float
rounding).  Database query results are passed as explicit parameters.
-/

namespace PhotoStory

/-- Insertion-ordered dictionary update `d[k].extend(xs)` with
`defaultdict(list)` semantics: append to the existing group for `k`, or add
a new group at the end. -/
def dextend [DecidableEq κ] (k : κ) (xs : List α) :
    List (κ × List α) → List (κ × List α)
  | [] => [(k, xs)]
  | (k', ys) :: rest =>
      if k = k' then (k', ys ++ xs) :: rest else (k', ys) :: dextend k xs rest

/-- `d[k]` for such a dictionary (empty list when absent). -/
def dlookup [DecidableEq κ] (k : κ) (d : List (κ × List α)) : List α :=
  ((d.find? (fun g => decide (g.1 = k))).map (fun g => g.2)).getD []

/-- Python `(b - a).days` for datetimes `a ≤ b` stored as seconds. -/
def days_between (a b : Int) : Int := (b - a).fdiv 86400

/-- Python `str.lower()`: character-wise lowercasing (the executable
equivalent of `String.toLower`). -/
def pyLower (s : String) : String := String.mk (s.data.map Char.toLower)

/-- The `Location` ORM row (models.py lines 53-66) reached through a photo's
`location` relationship (models.py line 46).  It is a plain declarative
object: it has these columns as attributes but no `get` method and no
subscripting. -/
structure LocInfo where
  latitude : ℚ
  longitude : ℚ
  location_name : Option String := none
  city : Option String := none
  country : Option String := none
  deriving DecidableEq, Repr

/-- A photo with a non-null capture date, as consumed by the clusterers
(`_cluster_by_time` sorts on `capture_date`, so null dates would raise). -/
structure Image where
  id : Nat
  capture_date : Int
  location : Option LocInfo := none
  deriving DecidableEq, Repr

/-- Comparison key of `sorted(photos, key=lambda p: p.capture_date)`. -/
def capture_le (a b : Image) : Prop := a.capture_date ≤ b.capture_date

instance : DecidableRel capture_le := fun a b => Int.decLe a.capture_date b.capture_date

instance : IsTotal Image capture_le :=
  ⟨fun a b => Int.le_total a.capture_date b.capture_date⟩

instance : IsTrans Image capture_le :=
  ⟨fun _ _ _ hab hbc => Int.le_trans hab hbc⟩

instance : IsRefl Image capture_le := ⟨fun a => Int.le_refl a.capture_date⟩

/-- `sorted(photos, key=lambda p: p.capture_date)`; a stable sort, like
Python's (insertion sort keeps the original order of photos with equal
capture dates). -/
def sort_by_capture (photos : List Image) : List Image :=
  photos.insertionSort capture_le

/-- Loop body of `_cluster_by_time` (ai_story_arc_detector.py lines 284-301):
`prev` is the previously visited photo, `currRev` the running cluster in
reverse order (its head is `prev`); a cluster is emitted only when its size
reaches `min_cluster_size`. -/
def clusterAux (max_gap_days : Int) (min_cluster_size : Nat) :
    Image → List Image → List Image → List (List Image)
  | _, currRev, [] =>
      if min_cluster_size ≤ currRev.length then [currRev.reverse] else []
  | prev, currRev, p :: rest =>
      if days_between prev.capture_date p.capture_date ≤ max_gap_days then
        clusterAux max_gap_days min_cluster_size p (p :: currRev) rest
      else
        (if min_cluster_size ≤ currRev.length then [currRev.reverse] else []) ++
          clusterAux max_gap_days min_cluster_size p [p] rest

/-- `_cluster_by_time(photos, max_gap_days, min_cluster_size)`
(ai_story_arc_detector.py lines 275-303). -/
def cluster_by_time (photos : List Image) (max_gap_days : Int)
    (min_cluster_size : Nat) : List (List Image) :=
  match sort_by_capture photos with
  | [] => []
  | p :: rest => clusterAux max_gap_days min_cluster_size p (p :: []) rest

/-- One aggregated classification row `(Category.name, count, avg_confidence)`
returned by the grouped query in `_analyze_cluster_with_unified_patterns`. -/
structure CatRow where
  name : String
  count : Nat
  conf : ℚ
  deriving DecidableEq, Repr

/-- One aggregated emotion row `(Emotion.name, count, avg_confidence)`. -/
structure EmoRow where
  name : String
  count : Nat
  conf : ℚ
  deriving DecidableEq, Repr

/-- The `arc_info` dictionaries produced by `_determine_arc_type_unified`.
Source titles carry a decorative emoji prefix which the embedding elides. -/
structure ArcInfo where
  title : String
  description : String
  story_type : String
  arc_type : String
  deriving DecidableEq, Repr

/-- `any(cat in category_names for cat in keys)`. -/
def keyword_match (category_names : List String) (keys : List String) : Bool :=
  keys.any (fun k => category_names.contains k)

/-- The `category_patterns` table of rule 8 in `_determine_arc_type_unified`
(keyword, title, description, story_type), in source (insertion) order. -/
def category_patterns : List (String × String × String × String) :=
  [("food", "Food & Dining", "Delicious meals and culinary experiences.", "dining"),
   ("restaurant", "Food & Dining", "Delicious meals and culinary experiences.", "dining"),
   ("pets", "Pet Moments", "Special times with furry friends.", "pets"),
   ("dog", "Pet Moments", "Special times with furry friends.", "pets"),
   ("cat", "Pet Moments", "Special times with furry friends.", "pets"),
   ("animal", "Animal Encounters", "Memorable moments with animals.", "animals"),
   ("sports", "Sports & Activities", "Active moments filled with energy.", "activity"),
   ("activity", "Sports & Activities", "Active moments filled with energy.", "activity"),
   ("art", "Creative Moments", "Artistic and creative experiences.", "creative"),
   ("music", "Musical Moments", "Times filled with music and rhythm.", "music"),
   ("car", "On the Road", "Adventures and travels by car.", "travel"),
   ("vehicle", "On the Road", "Adventures and travels by vehicle.", "travel")]

/-- `_determine_arc_type_unified(classifications, emotions, cluster)`
(ai_story_arc_detector.py lines 149-272).  `fmtMonth` stands for the external
`strftime('%B')`; `cluster = []` cannot reach the date indexing in source
(it would raise) and is mapped to `none`. -/
def determine_arc_type_unified (fmtMonth : Int → String) (classifications : List CatRow)
    (emotions : List EmoRow) (cluster : List Image) : Option ArcInfo :=
  if classifications = [] then none
  else
    match cluster with
    | [] => none
    | first :: rest =>
      let category_names := classifications.map (fun c => pyLower c.name)
      let emotion_names := emotions.map (fun e => pyLower e.name)
      let last_ := (first :: rest).getLast (List.cons_ne_nil _ _)
      let duration_days := days_between first.capture_date last_.capture_date
      -- 1. Beach/Vacation
      if keyword_match category_names ["beach", "ocean", "vacation", "travel", "tropical"] then
        if 3 ≤ duration_days then
          some ⟨"Beach Vacation", "Sun, sand, and unforgettable memories by the ocean.",
                "vacation", "trip"⟩
        else
          some ⟨"Beach Day", "A perfect day by the water.", "day_trip", "moments"⟩
      -- 2. Wedding/Special Celebration
      else if keyword_match category_names ["wedding", "bride", "ceremony"] then
        some ⟨"Wedding Celebration", "A beautiful celebration of love and commitment.",
              "wedding", "event"⟩
      -- 3. Birthday/Party (falls through when the emotion test fails)
      else if (category_names.contains "celebration" || category_names.contains "party")
          && keyword_match emotion_names ["happiness", "happy", "joy"] then
        some ⟨"Celebration", "Joyful moments celebrating together.", "celebration", "event"⟩
      -- 4. Family & Friends
      else if keyword_match category_names ["family", "family & friends", "gathering"]
          && keyword_match emotion_names ["happiness", "love", "joy"] then
        some ⟨"Time with Loved Ones", "Cherished moments with family and friends.",
              "social", "event"⟩
      -- 5. Outdoor Adventure
      else if keyword_match category_names ["outdoor", "nature", "hiking", "camping"]
          && keyword_match emotion_names ["happiness", "excited"] then
        some ⟨"Outdoor Adventure", "Exploring nature and making memories.",
              "adventure", "trip"⟩
      -- 6. Holiday/Festive
      else if keyword_match category_names ["holiday", "christmas", "festive", "decoration"] then
        some ⟨"Holiday Celebration", "Festive moments filled with joy and warmth.",
              "holiday", "event"⟩
      -- 7. Travel/Trip
      else if 3 ≤ duration_days then
        some ⟨fmtMonth first.capture_date ++ " Trip",
              "A " ++ toString duration_days ++ "-day journey filled with new experiences.",
              "trip", "trip"⟩
      -- 8. Category-based arcs
      else
        (category_patterns.findSome? (fun kp =>
          if category_names.contains kp.1 then
            some (⟨kp.2.1, kp.2.2.1, kp.2.2.2, "moments"⟩ : ArcInfo)
          else none))

/-- The subset of `Story` columns set by the detectors and read by the
attachment step (models.Story).  Metadata dictionary entries are flattened
into `meta_*` fields; unset fields keep their model defaults. -/
structure Story where
  user_id : Nat
  chapter_id : Nat
  title : String
  description : String
  story_type : String
  arc_type : String
  start_date : Option Int := none
  end_date : Option Int := none
  photo_count : Nat := 0
  generation_source : String
  meta_photo_ids : List Nat := []
  meta_life_event_id : Option Nat := none
  meta_categories : List String := []
  meta_emotions : List String := []
  meta_temporal_span_days : Option Int := none
  sequence_order : Nat := 0
  deriving DecidableEq, Repr

/-- The chapter columns read by the arc detectors. -/
structure ChapterRec where
  id : Nat
  user_id : Nat
  year_start : Option Int := none
  year_end : Option Int := none
  deriving Repr

/-- Python `min(...)` over the capture dates of a nonempty cluster. -/
def min_capture (first : Image) (rest : List Image) : Int :=
  rest.foldl (fun a p => min a p.capture_date) first.capture_date

/-- Python `max(...)` over the capture dates of a nonempty cluster. -/
def max_capture (first : Image) (rest : List Image) : Int :=
  rest.foldl (fun a p => max a p.capture_date) first.capture_date

/-- `_analyze_cluster_with_unified_patterns(cluster, chapter, db)`
(ai_story_arc_detector.py lines 60-146).  The two grouped database queries
are abstracted as `dbCats`/`dbEmos` from the cluster's photo-id list; the
source always returns a `Story` for the nonempty clusters it is called on. -/
def analyze_cluster_with_unified_patterns (fmtMonth : Int → String)
    (dbCats : List Nat → List CatRow) (dbEmos : List Nat → List EmoRow)
    (chapter : ChapterRec) (cluster : List Image) : Option Story :=
  match cluster with
  | [] => none
  | first :: rest =>
    let photo_ids := (first :: rest).map (fun p => p.id)
    let classifications := dbCats photo_ids
    let emotions := dbEmos photo_ids
    let last_ := (first :: rest).getLast (List.cons_ne_nil _ _)
    let arc_info :=
      (determine_arc_type_unified fmtMonth classifications emotions (first :: rest)).getD
        ⟨fmtMonth (min_capture first rest) ++ " Moments", "To be enhanced by AI",
         "moments", "moments"⟩
    some { user_id := chapter.user_id
           chapter_id := chapter.id
           title := arc_info.title
           description := arc_info.description
           story_type := arc_info.story_type
           arc_type := arc_info.arc_type
           start_date := some first.capture_date
           end_date := some last_.capture_date
           photo_count := (first :: rest).length
           generation_source := "unified_ai_pattern"
           meta_photo_ids := photo_ids
           meta_categories := classifications.map (fun c => c.name)
           meta_emotions := emotions.map (fun e => e.name)
           meta_temporal_span_days :=
             some (days_between first.capture_date last_.capture_date) }

/-- `detect_ai_pattern_arcs(chapter, photos, db)`
(ai_story_arc_detector.py lines 15-57). -/
def detect_ai_pattern_arcs (fmtMonth : Int → String)
    (dbCats : List Nat → List CatRow) (dbEmos : List Nat → List EmoRow)
    (chapter : ChapterRec) (photos : List Image) : List Story :=
  (cluster_by_time photos 30 3).foldl (fun arcs cluster =>
    (analyze_cluster_with_unified_patterns fmtMonth dbCats dbEmos chapter cluster).elim
      arcs (fun arc => arcs ++ [arc])) []

/-- A `LifeEvent` row as read by `detect_life_event_arcs`. -/
structure LifeEvent where
  id : Nat
  user_id : Nat
  event_type : String
  event_name : String
  description : String
  event_date : Int
  deriving DecidableEq, Repr

/-- The `arc_type_mapping` dictionary (story_arc_detector.py lines 112-120). -/
def arc_type_mapping : List (String × String) :=
  [("wedding", "event"), ("birth", "event"), ("graduation", "event"),
   ("move", "milestone"), ("vacation", "trip"), ("birthday", "tradition"),
   ("anniversary", "tradition")]

/-- `detect_life_event_arcs(chapter, db)` (story_arc_detector.py lines 78-156).
The queries are abstracted: `life_events` is the result of the user/date-range
query, `eventPhotos` the `LifeEventImage` join for one event id.  Source
titles carry a decorative emoji prefix which the embedding elides. -/
def detect_life_event_arcs (chapter : ChapterRec) (life_events : List LifeEvent)
    (eventPhotos : Nat → List Image) : List Story :=
  life_events.foldl (fun arcs event =>
    let event_photos := eventPhotos event.id
    if event_photos = [] then arcs
    else
      let arc_type :=
        ((arc_type_mapping.find? (fun kv => kv.1 == event.event_type)).map
          (fun kv => kv.2)).getD "event"
      arcs ++ [{ user_id := chapter.user_id
                 chapter_id := chapter.id
                 title := event.event_name
                 description := event.description
                 story_type := event.event_type
                 arc_type := arc_type
                 start_date := some event.event_date
                 end_date := some event.event_date
                 photo_count := event_photos.length
                 generation_source := "life_event"
                 meta_life_event_id := some event.id
                 sequence_order := arcs.length }]) []

/-- `detect_trip_arcs(chapter, photos, db)` (story_arc_detector.py
lines 159-223).  Its first statement, the filter at line 166
`[p for p in photos if p.location and p.location.get('latitude')]`,
evaluates `p.location.get(...)` as soon as a photo's `location` relationship
row exists (an ORM object is truthy, so `and` does not short-circuit); the
`Location` row has no `get` method, so the comprehension raises
`AttributeError` at the first geotagged photo.  Only when no photo has a
location row does it complete, with `gps_photos = []`, and then
`len(gps_photos) < 5` returns no arcs.  The rest of the function (rounding,
`cluster_photos_by_location`, the span test, arc construction) is
unreachable on any input. -/
def detect_trip_arcs (_chapter : ChapterRec) (photos : List Image) :
    Except String (List Story) :=
  if photos.any (fun p => p.location.isSome) then .error "AttributeError"
  else .ok []

/-- `cluster_photos_by_temporal_bursts(photos, min_gap_days)`
(story_arc_detector.py lines 16-50): same loop as `_cluster_by_time` with the
minimum cluster size fixed at 2. -/
def cluster_photos_by_temporal_bursts (photos : List Image) (min_gap_days : Int) :
    List (List Image) :=
  match sort_by_capture photos with
  | [] => []
  | p :: rest => clusterAux min_gap_days 2 p (p :: []) rest

/-- `detect_temporal_arcs(chapter, photos, db)` (story_arc_detector.py
lines 226-272): bursts with gap ≤ 7 days, clusters of fewer than 5 photos
skipped. -/
def detect_temporal_arcs (fmtMonth : Int → String) (chapter : ChapterRec)
    (photos : List Image) : List Story :=
  (cluster_photos_by_temporal_bursts photos 7).foldl (fun arcs cluster =>
    if cluster.length < 5 then arcs
    else
      match cluster with
      | [] => arcs
      | first :: rest =>
        let start_date := min_capture first rest
        let end_date := max_capture first rest
        arcs ++ [{ user_id := chapter.user_id
                   chapter_id := chapter.id
                   title := fmtMonth start_date ++ " Moments"
                   description := "Memories from " ++ fmtMonth start_date
                   story_type := "moments"
                   arc_type := "event"
                   start_date := some start_date
                   end_date := some end_date
                   photo_count := cluster.length
                   generation_source := "time_cluster"
                   sequence_order := arcs.length }]) []

/-- The list of arcs step 3 contributes: its result on success, nothing when
the call raised (story_arc_detector.py lines 341-351). -/
def ai_result_arcs (ai : Except String (List Story)) : List Story :=
  match ai with
  | .ok arcs => arcs
  | .error _ => []

/-- The orchestration of `detect_story_arcs_for_chapter` (story_arc_detector.py
lines 330-358), with each sub-detector call abstracted as its outcome
(`Except` models a Python call that may raise).  Only the step-3 call sits in
a `try/except` (lines 342-351); the returned Bool records whether the
temporal fallback ran. -/
def run_arc_detection (life trips : Except String (List Story))
    (ai : Except String (List Story)) (temporal : Except String (List Story)) :
    Except String (List Story × Bool) := do
  let life_event_arcs ← life
  let trip_arcs ← trips
  let (ai_arcs, ai_arcs_count) :=
    match ai with
    | .ok arcs => (arcs, arcs.length)
    | .error _ => ([], 0)
  let all_story_arcs := life_event_arcs ++ trip_arcs ++ ai_arcs
  if ai_arcs_count = 0 ∧ all_story_arcs.length < 2 then do
    let temporal_arcs ← temporal
    return (all_story_arcs ++ temporal_arcs.take 2, true)
  else
    return (all_story_arcs, false)

/-- `detect_story_arcs_for_chapter` with the concrete modelled sub-detectors
plugged into the orchestration.  Steps 1, 3 and 4 are pure (hence
non-raising) in the model; step 2 raises whenever a chapter photo has a
location row, and that call sits outside the `try/except`, so its exception
propagates out of the function.  `photos` is the result of the chapter
date-range photo query. -/
def detect_story_arcs_for_chapter (fmtMonth : Int → String)
    (dbCats : List Nat → List CatRow) (dbEmos : List Nat → List EmoRow)
    (chapter : ChapterRec) (life_events : List LifeEvent)
    (eventPhotos : Nat → List Image) (photos : List Image) :
    Except String (List Story × Bool) :=
  if photos = [] then .ok ([], false)  -- lines 324-326: empty chapter query
  else
    run_arc_detection
      (.ok (detect_life_event_arcs chapter life_events eventPhotos))
      (detect_trip_arcs chapter photos)
      (.ok (detect_ai_pattern_arcs fmtMonth dbCats dbEmos chapter photos))
      (.ok (detect_temporal_arcs fmtMonth chapter photos))

/-- The per-arc photo re-query of the attachment step
(story_arc_detector.py lines 373-407).  `dbPhotos` stands for the user's
`Image` table restricted to `chapter.user_id`; `eventPhotos` for the
`LifeEventImage` join. -/
def photos_for_arc (dbPhotos : List Image) (eventPhotos : Nat → List Image)
    (arc : Story) : List Image :=
  if arc.generation_source = "life_event" then
    eventPhotos (arc.meta_life_event_id.getD 0)
  else if arc.generation_source = "ai_pattern" ∨
      arc.generation_source = "unified_ai_pattern" then
    if arc.meta_photo_ids ≠ [] then
      sort_by_capture (dbPhotos.filter (fun p => arc.meta_photo_ids.contains p.id))
    else
      match arc.start_date, arc.end_date with
      | some s, some e =>
        sort_by_capture (dbPhotos.filter (fun p =>
          decide (s ≤ p.capture_date) && decide (p.capture_date ≤ e)))
      | _, _ => []
  else
    match arc.start_date, arc.end_date with
    | some s, some e =>
      sort_by_capture (dbPhotos.filter (fun p =>
        decide (s ≤ p.capture_date) && decide (p.capture_date ≤ e)))
    | _, _ => []

/-! ## Chapter generator (chapter_generator.py)

Here dates are calendar dates `(year, month, day)`; Python compares
datetimes lexicographically on those components. -/

/-- A calendar date as read by the chapter generator. -/
structure CDate where
  year : Int
  month : Nat
  day : Nat
  deriving DecidableEq, Repr

/-- Python datetime/tuple comparison, lexicographic on (year, month, day). -/
def cdate_le (a b : CDate) : Bool :=
  decide (a.year < b.year ∨ (a.year = b.year ∧
    (a.month < b.month ∨ (a.month = b.month ∧ a.day ≤ b.day))))

/-- An `Image` row as read by the chapter generator (capture and upload
dates both nullable). -/
structure PhotoRec where
  id : Nat
  capture_date : Option CDate := none
  upload_date : Option CDate := none
  deriving DecidableEq, Repr

/-- A `User` row as read by the chapter generator. -/
structure UserRec where
  id : Nat
  birth_date : Option CDate := none
  deriving DecidableEq, Repr

/-- The `LIFE_PHASES` table (chapter_generator.py lines 17-28), in source
(insertion) order. -/
def LIFE_PHASES : List ((Nat × Nat) × String) :=
  [((0, 5), "Early Childhood"), ((6, 12), "Childhood Wonder"),
   ((13, 17), "Teenage Years"), ((18, 22), "College & Discovery"),
   ((23, 28), "Young Adulthood"), ((29, 35), "Building a Life"),
   ((36, 45), "Family & Career"), ((46, 55), "Prime Years"),
   ((56, 65), "Wisdom Years"), ((66, 100), "Golden Years")]

/-- `get_life_phase(age)` (lines 31-36). -/
def get_life_phase (age : Int) : String :=
  ((LIFE_PHASES.find? (fun ph =>
    decide ((ph.1.1 : Int) ≤ age ∧ age ≤ (ph.1.2 : Int)))).map
      (fun ph => ph.2)).getD "Life Journey"

/-- `calculate_age(birth_date, at_date)` (lines 39-43); the subtracted flag
is Python's lexicographic tuple comparison `(m, d) < (m, d)`. -/
def calculate_age (birth : CDate) (at_ : CDate) : Int :=
  at_.year - birth.year -
    (if at_.month < birth.month ∨ (at_.month = birth.month ∧ at_.day < birth.day)
     then 1 else 0)

/-- `group_photos_by_age(photos, birth_date)` (lines 46-59): photos without
a capture date are skipped. -/
def group_photos_by_age (photos : List PhotoRec) (birth : CDate) :
    List (Int × List PhotoRec) :=
  photos.foldl (fun d p =>
    match p.capture_date with
    | none => d
    | some cd => dextend (calculate_age birth cd) [p] d) []

/-- `group_photos_by_year(photos)` (lines 62-75). -/
def group_photos_by_year (photos : List PhotoRec) :
    List (Int × List PhotoRec) :=
  photos.foldl (fun d p =>
    match p.capture_date with
    | none => d
    | some cd => dextend cd.year [p] d) []

/-- The loop of `merge_adjacent_groups` (lines 92-108): `end_` is both the
current run's end and the previously visited key. -/
def mergeAdjAux (groups : List (Int × List PhotoRec)) (max_gap : Int) :
    Int → Int → List PhotoRec → List Int → List (Int × Int × List PhotoRec)
  | start, end_, photos, [] => [(start, end_, photos)]
  | start, end_, photos, k :: ks =>
      if k - end_ ≤ max_gap then
        mergeAdjAux groups max_gap start k (photos ++ dlookup k groups) ks
      else
        (start, end_, photos) :: mergeAdjAux groups max_gap k k (dlookup k groups) ks

/-- `merge_adjacent_groups(groups, max_gap)` (lines 78-110). -/
def merge_adjacent_groups (groups : List (Int × List PhotoRec)) (max_gap : Int) :
    List (Int × Int × List PhotoRec) :=
  match (groups.map (fun g => g.1)).insertionSort (· ≤ ·) with
  | [] => []
  | k :: ks => mergeAdjAux groups max_gap k k (dlookup k groups) ks

/-- `phase_key` lookup of `generate_age_based_chapters` (lines 157-161):
the first life phase containing the age, `None` when outside the table. -/
def find_phase_key (age : Int) : Option (Nat × Nat) :=
  (LIFE_PHASES.find? (fun ph =>
    decide ((ph.1.1 : Int) ≤ age ∧ age ≤ (ph.1.2 : Int)))).map (fun ph => ph.1)

/-- The `life_phase_groups` dictionary of `generate_age_based_chapters`
(lines 153-166): age groups whose age lies outside the table are dropped. -/
def life_phase_groups (age_groups : List (Int × List PhotoRec)) :
    List ((Nat × Nat) × List PhotoRec) :=
  age_groups.foldl (fun d g =>
    match find_phase_key g.1 with
    | some k => dextend k g.2 d
    | none => d) []

/-- Python `sorted` on the phase keys, lexicographic on the pair (the keys
are distinct, so the tuple's further components never break ties). -/
def sort_phase_groups (d : List ((Nat × Nat) × List PhotoRec)) :
    List ((Nat × Nat) × List PhotoRec) :=
  d.insertionSort (fun a b => a.1.1 < b.1.1 ∨ (a.1.1 = b.1.1 ∧ a.1.2 ≤ b.1.2))

/-- The `merged_chapters` list of `generate_age_based_chapters`
(lines 169-172). -/
def age_merged_chapters (photos : List PhotoRec) (birth : CDate) :
    List ((Nat × Nat) × List PhotoRec) :=
  sort_phase_groups (life_phase_groups (group_photos_by_age photos birth))

/-- The `Chapter` columns written by the generator. -/
structure ChapterOut where
  user_id : Nat
  title : String
  chapter_type : String
  age_start : Option Int := none
  age_end : Option Int := none
  year_start : Option Int := none
  year_end : Option Int := none
  photo_count : Nat
  dominant_emotion : Option String := none
  sequence_order : Nat
  cover_image_id : Option Nat := none
  deriving DecidableEq, Repr

/-- `generate_age_based_chapters(user, photos, db)` (lines 137-211);
`dbDominant` abstracts the `get_dominant_emotion` database query. -/
def generate_age_based_chapters (user : UserRec) (photos : List PhotoRec)
    (dbDominant : List Nat → Option String) : List ChapterOut :=
  match user.birth_date with
  | none => []
  | some birth =>
    (age_merged_chapters photos birth).enum.map (fun sc =>
      let sequence := sc.1
      let age_start := sc.2.1.1
      let age_end := sc.2.1.2
      let chapter_photos := sc.2.2
      { user_id := user.id
        title := get_life_phase age_start
        chapter_type := "age_based"
        age_start := some (age_start : Int)
        age_end := some (age_end : Int)
        year_start := some (birth.year + age_start)
        year_end := some (birth.year + age_end)
        photo_count := chapter_photos.length
        dominant_emotion := dbDominant (chapter_photos.map (fun p => p.id))
        sequence_order := sequence
        cover_image_id := (chapter_photos.head?).map (fun p => p.id) })

/-- `generate_year_based_chapters(user, photos, db)` (lines 214-258). -/
def generate_year_based_chapters (user : UserRec) (photos : List PhotoRec)
    (dbDominant : List Nat → Option String) : List ChapterOut :=
  (merge_adjacent_groups (group_photos_by_year photos) 1).enum.map (fun sc =>
    let sequence := sc.1
    let year_start := sc.2.1
    let year_end := sc.2.2.1
    let chapter_photos := sc.2.2.2
    { user_id := user.id
      title := if year_start = year_end then "Life in " ++ toString year_start
               else "Memories " ++ toString year_start ++ "-" ++ toString year_end
      chapter_type := "year_based"
      year_start := some year_start
      year_end := some year_end
      photo_count := chapter_photos.length
      dominant_emotion := dbDominant (chapter_photos.map (fun p => p.id))
      sequence_order := sequence
      cover_image_id := (chapter_photos.head?).map (fun p => p.id) })

/-- The in-place fallback of `generate_chapters_for_user` (lines 298-300):
a photo without a capture date has its `capture_date` column set to the
upload date on the session object. -/
def apply_capture_fallback (p : PhotoRec) : PhotoRec :=
  if p.capture_date = none ∧ p.upload_date ≠ none then
    { p with capture_date := p.upload_date }
  else p

/-- Comparison key used to sort photos by capture date (`None` never occurs
after the date filter). -/
def photo_date_le (p q : PhotoRec) : Bool :=
  match p.capture_date, q.capture_date with
  | some a, some b => cdate_le a b
  | none, _ => true
  | _, none => false

/-- `generate_chapters_for_user(user_id, db, force_regenerate)`
(lines 261-332), returning the generated chapters together with the user's
photo rows as the session leaves them (the fallback at lines 298-300 mutates
the ORM objects, and `db.commit()` at line 324 persists those changes).
`stored_photos` / `existing_chapters` are the two initial queries. -/
def generate_chapters_for_user (user : UserRec) (stored_photos : List PhotoRec)
    (dbDominant : List Nat → Option String) (existing_chapters : List ChapterOut)
    (force_regenerate : Bool) : List ChapterOut × List PhotoRec :=
  if 0 < existing_chapters.length ∧ force_regenerate = false then
    (existing_chapters, stored_photos)
  else if stored_photos = [] then ([], stored_photos)
  else
    let mutated := stored_photos.map apply_capture_fallback
    let dated := mutated.filter (fun p => p.capture_date ≠ none)
    if dated = [] then ([], mutated)
    else
      let sorted_photos := dated.insertionSort (fun p q => photo_date_le p q = true)
      let chapters :=
        match user.birth_date with
        | some _ => generate_age_based_chapters user sorted_photos dbDominant
        | none => generate_year_based_chapters user sorted_photos dbDominant
      (chapters, mutated)

/-! ## Pattern detection (routers/patterns.py) -/

/-- An `Image` row as read by the pattern detector. -/
structure PatImage where
  id : Nat
  capture_date : Option CDate := none
  deriving DecidableEq, Repr

/-- A `Pattern` row with its metadata entries flattened and its
`PatternImage` links collected in `image_ids`. -/
structure Pattern where
  user_id : Nat
  pattern_type : String
  frequency : String
  month : Nat
  day : Option Nat := none
  years : List Int
  confidence_score : ℚ
  image_ids : List Nat
  deriving DecidableEq, Repr

/-- `[img for img in images if img.capture_date]`, keeping the date at hand. -/
def dated_images (images : List PatImage) : List (PatImage × CDate) :=
  images.filterMap (fun img => img.capture_date.map (fun d => (img, d)))

/-- The pattern one (month, day) group contributes ("at least 2 occurrences"
then "at least 2 different years", patterns.py lines 128-144), `none` when
the group is skipped. -/
def annual_pattern_of (user_id : Nat)
    (g : (Nat × Nat) × List (PatImage × CDate)) : Option Pattern :=
  if 2 ≤ g.2.length then
    let years : List Int := g.2.map (fun pd => pd.2.year)
    if 2 ≤ years.eraseDups.length then
      some { user_id := user_id
             pattern_type := "temporal"
             frequency := "annual"
             month := g.1.1
             day := some g.1.2
             years := years
             confidence_score :=
               min (95/100 : ℚ) (7/10 + (g.2.length : ℚ) * (1/10))
             image_ids := g.2.map (fun pd => pd.1.id) }
    else none
  else none

/-- The annual half of `detect_temporal_patterns` (patterns.py lines
120-157): group by (month, day); a group yields a pattern when it has at
least 2 photos across at least 2 distinct years, with confidence
`min(0.95, 0.7 + count*0.1)` (floats modelled exactly over `ℚ`). -/
def annual_patterns (user_id : Nat) (dated : List (PatImage × CDate)) :
    List Pattern :=
  (dated.foldl (fun d pd => dextend (pd.2.month, pd.2.day) [pd] d)
    ([] : List ((Nat × Nat) × List (PatImage × CDate)))).foldl
    (fun pats g => (annual_pattern_of user_id g).elim pats
      (fun pat => pats ++ [pat])) []

/-- The pattern one month group contributes (patterns.py lines 166-192),
`none` when the group is skipped. -/
def monthly_pattern_of (user_id : Nat)
    (g : Nat × List (PatImage × CDate)) : Option Pattern :=
  if 3 ≤ g.2.length then
    let years : List Int := g.2.map (fun pd => pd.2.year)
    if 2 ≤ years.eraseDups.length then
      some { user_id := user_id
             pattern_type := "temporal"
             frequency := "monthly"
             month := g.1
             years := years.eraseDups
             confidence_score :=
               min (90/100 : ℚ) (6/10 + (g.2.length : ℚ) * (5/100))
             image_ids := g.2.map (fun pd => pd.1.id) }
    else none
  else none

/-- The monthly half of `detect_temporal_patterns` (patterns.py lines
159-192): group by month; at least 3 photos across at least 2 distinct
years, confidence `min(0.90, 0.6 + count*0.05)`. -/
def monthly_patterns (user_id : Nat) (dated : List (PatImage × CDate)) :
    List Pattern :=
  (dated.foldl (fun d pd => dextend pd.2.month [pd] d)
    ([] : List (Nat × List (PatImage × CDate)))).foldl
    (fun pats g => (monthly_pattern_of user_id g).elim pats
      (fun pat => pats ++ [pat])) []

/-- `detect_temporal_patterns(db, user_id, images)` (patterns.py lines
106-194): fewer than 3 dated images yield no patterns; otherwise annual
patterns followed by monthly patterns. -/
def detect_temporal_patterns (user_id : Nat) (images : List PatImage) :
    List Pattern :=
  let dated := dated_images images
  if dated.length < 3 then []
  else annual_patterns user_id dated ++ monthly_patterns user_id dated

/-- A geotagged image of `detect_spatial_patterns`: the `(img, location)`
pairs that survive the latitude/longitude filter. -/
structure GeoPoint where
  id : Nat
  lat : ℚ
  lon : ℚ
  deriving DecidableEq, Repr

/-- `PROXIMITY_THRESHOLD = 0.001` (patterns.py line 215). -/
def PROXIMITY_THRESHOLD : ℚ := 1/1000

/-- Squared Euclidean distance from a cluster's running centroid to a point
(patterns.py lines 224-228); the source compares
`sqrt(d2) < PROXIMITY_THRESHOLD`, which for nonnegative reals is exactly
`d2 < PROXIMITY_THRESHOLD^2`. -/
def within_threshold (cluster : List GeoPoint) (p : GeoPoint) : Bool :=
  let n : ℚ := cluster.length
  let clat := (cluster.map (fun q => q.lat)).sum / n
  let clon := (cluster.map (fun q => q.lon)).sum / n
  decide ((p.lat - clat) ^ (2 : ℕ) + (p.lon - clon) ^ (2 : ℕ) <
    PROXIMITY_THRESHOLD ^ (2 : ℕ))

/-- Inner loop of the greedy clustering of `detect_spatial_patterns`
(patterns.py lines 220-236): append to the first cluster whose running
centroid is within the threshold, else open a new cluster at the end. -/
def add_to_clusters : List (List GeoPoint) → GeoPoint → List (List GeoPoint)
  | [], p => [[p]]
  | c :: cs, p =>
      if within_threshold c p then (c ++ [p]) :: cs else c :: add_to_clusters cs p

/-- The clustering used by `detect_spatial_patterns` for global location
patterns: the greedy centroid loop over the points in input order.
(`utils/spatial_clustering.cluster_locations_dbscan` exists but has no
caller in pattern detection.) -/
def spatial_clusters (points : List GeoPoint) : List (List GeoPoint) :=
  points.foldl add_to_clusters []

/-- The id set of the cluster containing the point with identifier `i`
(used to compare the partitions produced from different input orders). -/
def cluster_ids_containing (points : List GeoPoint) (i : Nat) : List (List Nat) :=
  ((spatial_clusters points).filter (fun c => c.any (fun p => p.id == i))).map
    (fun c => c.map (fun p => p.id))

/-! ## Helper lemmas -/

/-- A fold whose step only ever appends elements satisfying `P` yields a list
whose new elements all satisfy `P`. -/
theorem foldl_mem_invariant {α β : Type _} (P : β → Prop) (f : List β → α → List β)
    (hf : ∀ acc a x, x ∈ f acc a → x ∈ acc ∨ P x) :
    ∀ (l : List α) (acc : List β), (∀ x ∈ acc, P x) → ∀ x ∈ l.foldl f acc, P x := by
  intro l
  induction l with
  | nil => intro acc hacc x hx; exact hacc x hx
  | cons a l ih =>
    intro acc hacc x hx
    refine ih (f acc a) ?_ x hx
    intro y hy
    rcases hf acc a y hy with h | h
    · exact hacc y h
    · exact h

/-- A fold whose step never removes elements keeps every accumulator
element. -/
theorem foldl_mem_mono {α β : Type _} (f : List β → α → List β)
    (hf : ∀ acc a x, x ∈ acc → x ∈ f acc a) :
    ∀ (l : List α) (acc : List β) (x : β), x ∈ acc → x ∈ l.foldl f acc := by
  intro l
  induction l with
  | nil => intro acc x hx; exact hx
  | cons a l ih => intro acc x hx; exact ih (f acc a) x (hf acc a x hx)

/-- Elements of an optional-append fold come from the accumulator or from a
list element mapped to them. -/
theorem foldl_optAppend_mem {α β : Type _} (f : α → Option β) :
    ∀ (l : List α) (acc : List β) (b : β),
      b ∈ l.foldl (fun acc a => (f a).elim acc (fun x => acc ++ [x])) acc →
      b ∈ acc ∨ ∃ a ∈ l, f a = some b := by
  intro l
  induction l with
  | nil => intro acc b hb; exact Or.inl hb
  | cons a l ih =>
    intro acc b hb
    rw [List.foldl_cons] at hb
    rcases ih _ b hb with h | ⟨a', ha', hfa⟩
    · cases hfa : f a with
      | none => simp only [hfa, Option.elim] at h; exact Or.inl h
      | some x =>
        simp only [hfa, Option.elim] at h
        rcases List.mem_append.mp h with h | h
        · exact Or.inl h
        · exact Or.inr ⟨a, List.mem_cons_self a l, by
            rw [hfa]; rw [List.mem_singleton.mp h]⟩
    · exact Or.inr ⟨a', List.mem_cons_of_mem a ha', hfa⟩

/-! ## Temporal clusterer lemmas -/

/-- When every consecutive gap along `prev :: rest` is within the bound, the
clusterer loop accumulates everything into one run and emits it only if the
size threshold is met. -/
theorem clusterAux_of_chain (g : Int) (m : Nat) :
    ∀ (rest : List Image) (prev : Image) (currRev : List Image),
      List.Chain' (fun a b => days_between a.capture_date b.capture_date ≤ g)
        (prev :: rest) →
      clusterAux g m prev currRev rest =
        if m ≤ currRev.length + rest.length then [currRev.reverse ++ rest] else [] := by
  intro rest
  induction rest with
  | nil => intro prev currRev _; simp [clusterAux]
  | cons p rest ih =>
    intro prev currRev h
    rw [List.chain'_cons] at h
    have step : clusterAux g m prev currRev (p :: rest) =
        clusterAux g m p (p :: currRev) rest := by
      simp only [clusterAux, if_pos h.1]
    rw [step, ih p (p :: currRev) h.2]
    have hlen : (p :: currRev).length + rest.length =
        currRev.length + (p :: rest).length := by
      simp only [List.length_cons]; omega
    have hlist : (p :: currRev).reverse ++ rest = currRev.reverse ++ p :: rest := by
      simp
    rw [hlen, hlist]

/-- Every cluster the loop emits has at least `min_cluster_size` photos. -/
theorem clusterAux_min_length (g : Int) (m : Nat) :
    ∀ (rest : List Image) (prev : Image) (currRev : List Image),
      ∀ c ∈ clusterAux g m prev currRev rest, m ≤ c.length := by
  intro rest
  induction rest with
  | nil =>
    intro prev currRev c hc
    simp only [clusterAux] at hc
    split at hc
    · next hm => rw [List.mem_singleton.mp hc]; simpa using hm
    · exact absurd hc (List.not_mem_nil c)
  | cons p rest ih =>
    intro prev currRev c hc
    simp only [clusterAux] at hc
    split at hc
    · exact ih p (p :: currRev) c hc
    · rcases List.mem_append.mp hc with h | h
      · split at h
        · next hm => rw [List.mem_singleton.mp h]; simpa using hm
        · exact absurd h (List.not_mem_nil c)
      · exact ih p [p] c h

/-- Every cluster the loop emits is nonempty (the running cluster always
holds at least the previous photo). -/
theorem clusterAux_ne_nil (g : Int) (m : Nat) :
    ∀ (rest : List Image) (prev : Image) (currRev : List Image),
      currRev ≠ [] → ∀ c ∈ clusterAux g m prev currRev rest, c ≠ [] := by
  intro rest
  induction rest with
  | nil =>
    intro prev currRev hne c hc
    simp only [clusterAux] at hc
    split at hc
    · rw [List.mem_singleton.mp hc]; simpa using hne
    · exact absurd hc (List.not_mem_nil c)
  | cons p rest ih =>
    intro prev currRev hne c hc
    simp only [clusterAux] at hc
    split at hc
    · exact ih p (p :: currRev) (List.cons_ne_nil p currRev) c hc
    · rcases List.mem_append.mp hc with h | h
      · split at h
        · rw [List.mem_singleton.mp h]; simpa using hne
        · exact absurd h (List.not_mem_nil c)
      · exact ih p [p] (List.cons_ne_nil p []) c h

/-- Every cluster the loop emits is sorted by capture date, provided the
run-so-far (reversed) followed by the remaining photos is sorted. -/
theorem clusterAux_sorted (g : Int) (m : Nat) :
    ∀ (rest : List Image) (prev : Image) (currRev : List Image),
      List.Pairwise capture_le (currRev.reverse ++ rest) →
      ∀ c ∈ clusterAux g m prev currRev rest, List.Pairwise capture_le c := by
  intro rest
  induction rest with
  | nil =>
    intro prev currRev hsort c hc
    simp only [clusterAux] at hc
    split at hc
    · rw [List.mem_singleton.mp hc]
      simpa using hsort
    · exact absurd hc (List.not_mem_nil c)
  | cons p rest ih =>
    intro prev currRev hsort c hc
    simp only [clusterAux] at hc
    split at hc
    · refine ih p (p :: currRev) ?_ c hc
      have : (p :: currRev).reverse ++ rest = currRev.reverse ++ p :: rest := by simp
      rw [this]; exact hsort
    · rcases List.mem_append.mp hc with h | h
      · split at h
        · rw [List.mem_singleton.mp h]
          exact (List.pairwise_append.mp hsort).1
        · exact absurd h (List.not_mem_nil c)
      · refine ih p [p] ?_ c h
        simpa using (List.pairwise_append.mp hsort).2.1

/-- `sort_by_capture` is a permutation of its input. -/
theorem sort_by_capture_perm (photos : List Image) :
    (sort_by_capture photos).Perm photos :=
  List.perm_insertionSort capture_le photos

/-- `sort_by_capture` sorts by capture date. -/
theorem sort_by_capture_sorted (photos : List Image) :
    List.Pairwise capture_le (sort_by_capture photos) :=
  List.sorted_insertionSort capture_le photos

/-- In a capture-sorted nonempty list the head's date bounds every photo
from below. -/
theorem sorted_head_le (first : Image) (rest : List Image)
    (h : List.Pairwise capture_le (first :: rest)) :
    ∀ p ∈ first :: rest, first.capture_date ≤ p.capture_date := by
  intro p hp
  rcases List.mem_cons.mp hp with rfl | hp
  · exact le_refl _
  · exact (List.pairwise_cons.mp h).1 p hp

/-- In a capture-sorted list the last photo's date bounds every photo from
above. -/
theorem sorted_le_getLast :
    ∀ (l : List Image) (hne : l ≠ []), List.Pairwise capture_le l →
      ∀ p ∈ l, p.capture_date ≤ (l.getLast hne).capture_date := by
  intro l
  induction l with
  | nil => intro hne; exact absurd rfl hne
  | cons a l ih =>
    intro _ hsort p hp
    cases l with
    | nil =>
      rw [List.mem_singleton.mp hp]
      exact le_refl _
    | cons b l' =>
      rw [List.getLast_cons (List.cons_ne_nil b l')]
      rcases List.mem_cons.mp hp with rfl | hp
      · exact (List.pairwise_cons.mp hsort).1 _
          (List.getLast_mem (List.cons_ne_nil b l'))
      · exact ih (List.cons_ne_nil b l') (List.pairwise_cons.mp hsort).2 p hp

/-! ## C1: one cluster when all gaps are small -/

/-- C1 (counterexample): at the degenerate input `photos = []`,
`min_cluster_size = 0`, the claim's hypotheses hold (`0 ≥ 0`, no consecutive
gaps) yet `_cluster_by_time` returns no cluster at all rather than exactly
one cluster containing all photos. -/
theorem cluster_by_time_empty_input_no_cluster :
    0 ≤ ([] : List Image).length ∧
    List.Chain' (fun a b => days_between a.capture_date b.capture_date ≤ 30)
      (sort_by_capture []) ∧
    (cluster_by_time [] 30 0).length ≠ 1 := by
  refine ⟨Nat.zero_le _, ?_, ?_⟩
  · simp [sort_by_capture, List.insertionSort]
  · simp [cluster_by_time, sort_by_capture, List.insertionSort]

/-- C1 (amended: `min_cluster_size ≥ 1`, which the degenerate empty-input
call violates): for every photo list of size ≥ `min_cluster_size ≥ 1` whose
consecutive capture-date gaps after sorting are all ≤ `max_gap_days`,
`_cluster_by_time` returns exactly one cluster containing all the input
photos. -/
theorem cluster_by_time_single_cluster (photos : List Image)
    (max_gap_days : Int) (min_cluster_size : Nat)
    (hmin : 1 ≤ min_cluster_size)
    (hlen : min_cluster_size ≤ photos.length)
    (hgap : List.Chain' (fun a b => days_between a.capture_date b.capture_date ≤ max_gap_days)
      (sort_by_capture photos)) :
    ∃ c, cluster_by_time photos max_gap_days min_cluster_size = [c] ∧
      ∀ p : Image, p ∈ c ↔ p ∈ photos := by
  cases hsort : sort_by_capture photos with
  | nil =>
    exfalso
    have := (sort_by_capture_perm photos).length_eq
    rw [hsort] at this
    simp at this
    omega
  | cons p rest =>
    refine ⟨p :: rest, ?_, ?_⟩
    · have hrun : cluster_by_time photos max_gap_days min_cluster_size =
          clusterAux max_gap_days min_cluster_size p [p] rest := by
        simp only [cluster_by_time, hsort]
      rw [hrun, clusterAux_of_chain max_gap_days min_cluster_size rest p [p]
        (hsort ▸ hgap)]
      have hl : photos.length = (p :: rest).length := by
        rw [← (sort_by_capture_perm photos).length_eq, hsort]
      rw [if_pos (by simp only [List.length_cons, List.length_nil] at *; omega)]
      simp
    · intro q
      have := (sort_by_capture_perm photos).mem_iff (a := q)
      rw [hsort] at this
      exact this

/-- C1 witness: three photos one day apart, `max_gap_days = 30`,
`min_cluster_size = 3`. -/
theorem cluster_by_time_single_cluster_witness :
    ∃ c, cluster_by_time [⟨1, 0, none⟩, ⟨2, 86400, none⟩, ⟨3, 172800, none⟩] 30 3 = [c] ∧
      ∀ p : Image,
        p ∈ c ↔ p ∈ [⟨1, 0, none⟩, ⟨2, 86400, none⟩, ⟨3, 172800, none⟩] :=
  cluster_by_time_single_cluster _ 30 3 (by decide) (by decide)
    (by simp [sort_by_capture, List.insertionSort, List.orderedInsert, capture_le,
      List.chain'_cons, days_between])

/-! ## C6: the beach rule fires first -/

/-- C6: whenever a burst's ranked category names (lowercased) include one of
beach/ocean/vacation/travel/tropical, the first rule of
`_determine_arc_type_unified` fires — "Beach Vacation" of type `trip` when
the burst spans ≥ 3 days, else "Beach Day" of type `moments` — regardless of
any later rule. -/
theorem beach_rule_first_match (fmtMonth : Int → String)
    (classifications : List CatRow) (emotions : List EmoRow)
    (first : Image) (rest : List Image)
    (hbeach : keyword_match (classifications.map (fun c => pyLower c.name))
      ["beach", "ocean", "vacation", "travel", "tropical"] = true) :
    determine_arc_type_unified fmtMonth classifications emotions (first :: rest) =
      (if 3 ≤ days_between first.capture_date
          (((first :: rest)).getLast (List.cons_ne_nil _ _)).capture_date then
        some ⟨"Beach Vacation", "Sun, sand, and unforgettable memories by the ocean.",
              "vacation", "trip"⟩
      else
        some ⟨"Beach Day", "A perfect day by the water.", "day_trip", "moments"⟩) := by
  have hne : classifications ≠ [] := by
    intro h
    subst h
    simp [keyword_match] at hbeach
  simp only [determine_arc_type_unified, if_neg hne, hbeach, if_true]

/-- C6 witness: one burst tagged "Beach" spanning 4 days takes the
"Beach Vacation"/trip branch. -/
theorem beach_rule_first_match_witness :
    determine_arc_type_unified (fun _ => "M") [⟨"Beach", 4, 0⟩] []
        [⟨1, 0, none⟩, ⟨2, 345600, none⟩] =
      some ⟨"Beach Vacation", "Sun, sand, and unforgettable memories by the ocean.",
            "vacation", "trip"⟩ := by
  rw [beach_rule_first_match (fun _ => "M") [⟨"Beach", 4, 0⟩] []
    ⟨1, 0, none⟩ [⟨2, 345600, none⟩] (by decide)]
  decide

/-! ## C10: unified-arc metadata invariants -/

/-- Every cluster `_cluster_by_time` emits has at least `min_cluster_size`
photos, is nonempty, and is sorted by capture date. -/
theorem cluster_by_time_facts (photos : List Image) (g : Int) (m : Nat) :
    ∀ c ∈ cluster_by_time photos g m,
      m ≤ c.length ∧ c ≠ [] ∧ List.Pairwise capture_le c := by
  intro c hc
  rcases hsort : sort_by_capture photos with _ | ⟨p, rest⟩
  · rw [cluster_by_time, hsort] at hc
    exact absurd hc (List.not_mem_nil c)
  · rw [cluster_by_time, hsort] at hc
    have hsorted : List.Pairwise capture_le (([p] : List Image).reverse ++ rest) := by
      have := sort_by_capture_sorted photos
      rw [hsort] at this
      simpa using this
    exact ⟨clusterAux_min_length g m rest p [p] c hc,
      clusterAux_ne_nil g m rest p [p] (List.cons_ne_nil p []) c hc,
      clusterAux_sorted g m rest p [p] hsorted c hc⟩

/-- C10: every arc the unified detector emits records at least 3 photo ids
(the minimum burst size), a `photo_count` equal to that list's length, and
start/end dates equal to the earliest and latest capture dates of the listed
photos. -/
theorem unified_arc_metadata_invariants (fmtMonth : Int → String)
    (dbCats : List Nat → List CatRow) (dbEmos : List Nat → List EmoRow)
    (chapter : ChapterRec) (photos : List Image) (arc : Story)
    (harc : arc ∈ detect_ai_pattern_arcs fmtMonth dbCats dbEmos chapter photos) :
    3 ≤ arc.meta_photo_ids.length ∧
    arc.photo_count = arc.meta_photo_ids.length ∧
    ∃ (cluster : List Image) (s e : Int),
      cluster.map (fun p => p.id) = arc.meta_photo_ids ∧
      arc.start_date = some s ∧ arc.end_date = some e ∧
      s ∈ cluster.map (fun p => p.capture_date) ∧
      e ∈ cluster.map (fun p => p.capture_date) ∧
      ∀ p ∈ cluster, s ≤ p.capture_date ∧ p.capture_date ≤ e := by
  rw [detect_ai_pattern_arcs] at harc
  rcases foldl_optAppend_mem _ _ _ _ harc with h | ⟨cluster, hcl, hf⟩
  · exact absurd h (List.not_mem_nil arc)
  · obtain ⟨hlen, hnil, hsorted⟩ := cluster_by_time_facts photos 30 3 cluster hcl
    rcases cluster with _ | ⟨first, rest⟩
    · exact absurd rfl hnil
    · rw [analyze_cluster_with_unified_patterns] at hf
      simp only [Option.some.injEq] at hf
      subst hf
      refine ⟨by simpa using hlen, by simp, first :: rest, first.capture_date,
        ((first :: rest).getLast (List.cons_ne_nil _ _)).capture_date,
        rfl, rfl, rfl, ?_, ?_, ?_⟩
      · exact List.mem_map_of_mem _ (List.mem_cons_self first rest)
      · exact List.mem_map_of_mem _ (List.getLast_mem (List.cons_ne_nil _ _))
      · intro p hp
        exact ⟨sorted_head_le first rest hsorted p hp,
          sorted_le_getLast (first :: rest) (List.cons_ne_nil _ _) hsorted p hp⟩

/-- C10 witness: three dateless-metadata photos one day apart produce the
generic unified arc, whose metadata satisfies the invariants. -/
theorem unified_arc_metadata_invariants_witness :
    3 ≤ (Story.mk 1 1 "M Moments" "To be enhanced by AI" "moments" "moments"
      (some 0) (some 172800) 3 "unified_ai_pattern" [1, 2, 3] none [] []
      (some 2) 0).meta_photo_ids.length ∧
    (Story.mk 1 1 "M Moments" "To be enhanced by AI" "moments" "moments"
      (some 0) (some 172800) 3 "unified_ai_pattern" [1, 2, 3] none [] []
      (some 2) 0).photo_count =
      (Story.mk 1 1 "M Moments" "To be enhanced by AI" "moments" "moments"
        (some 0) (some 172800) 3 "unified_ai_pattern" [1, 2, 3] none [] []
        (some 2) 0).meta_photo_ids.length ∧
    ∃ (cluster : List Image) (s e : Int),
      cluster.map (fun p => p.id) =
        (Story.mk 1 1 "M Moments" "To be enhanced by AI" "moments" "moments"
          (some 0) (some 172800) 3 "unified_ai_pattern" [1, 2, 3] none [] []
          (some 2) 0).meta_photo_ids ∧
      (Story.mk 1 1 "M Moments" "To be enhanced by AI" "moments" "moments"
        (some 0) (some 172800) 3 "unified_ai_pattern" [1, 2, 3] none [] []
        (some 2) 0).start_date = some s ∧
      (Story.mk 1 1 "M Moments" "To be enhanced by AI" "moments" "moments"
        (some 0) (some 172800) 3 "unified_ai_pattern" [1, 2, 3] none [] []
        (some 2) 0).end_date = some e ∧
      s ∈ cluster.map (fun p => p.capture_date) ∧
      e ∈ cluster.map (fun p => p.capture_date) ∧
      ∀ p ∈ cluster, s ≤ p.capture_date ∧ p.capture_date ≤ e :=
  unified_arc_metadata_invariants (fun _ => "M") (fun _ => []) (fun _ => [])
    ⟨1, 1, none, none⟩ [⟨1, 0, none⟩, ⟨2, 86400, none⟩, ⟨3, 172800, none⟩] _
    (by decide)

/-! ## Detector fact lemmas (used for C3 and C5) -/

theorem foldl_min_le_init :
    ∀ (l : List Image) (a : Int), l.foldl (fun x p => min x p.capture_date) a ≤ a := by
  intro l
  induction l with
  | nil => intro a; exact le_refl a
  | cons p l ih =>
    intro a
    exact le_trans (ih (min a p.capture_date)) (min_le_left _ _)

theorem le_foldl_max_init :
    ∀ (l : List Image) (a : Int), a ≤ l.foldl (fun x p => max x p.capture_date) a := by
  intro l
  induction l with
  | nil => intro a; exact le_refl a
  | cons p l ih =>
    intro a
    exact le_trans (le_max_left _ _) (ih (max a p.capture_date))

theorem min_capture_le_max_capture (first : Image) (rest : List Image) :
    min_capture first rest ≤ max_capture first rest :=
  le_trans (foldl_min_le_init rest first.capture_date)
    (le_foldl_max_init rest first.capture_date)

/-- Every arc of the life-event detector carries source `life_event` and a
degenerate date range `[event_date, event_date]`. -/
theorem life_event_arcs_facts (chapter : ChapterRec) (life_events : List LifeEvent)
    (eventPhotos : Nat → List Image) :
    ∀ arc ∈ detect_life_event_arcs chapter life_events eventPhotos,
      arc.generation_source = "life_event" ∧
      ∃ d, arc.start_date = some d ∧ arc.end_date = some d := by
  rw [detect_life_event_arcs]
  refine foldl_mem_invariant _ _ ?_ life_events [] (by intro x hx; cases hx)
  intro acc event x hx
  dsimp only at hx
  split at hx
  · exact Or.inl hx
  · rcases List.mem_append.mp hx with h | h
    · exact Or.inl h
    · rw [List.mem_singleton.mp h]
      exact Or.inr ⟨rfl, event.event_date, rfl, rfl⟩

/-- The trip detector never produces an arc: it raises as soon as any photo
has a location row (`.get` on the `Location` ORM object), and returns the
empty list otherwise. -/
theorem trip_arcs_facts (chapter : ChapterRec) (photos : List Image) :
    (∀ arcs, detect_trip_arcs chapter photos = .ok arcs → arcs = []) ∧
    ((∃ p ∈ photos, p.location.isSome) →
      detect_trip_arcs chapter photos = .error "AttributeError") := by
  constructor
  · intro arcs h
    rw [detect_trip_arcs] at h
    split at h
    · cases h
    · exact (Except.ok.inj h).symm
  · rintro ⟨p, hp, hloc⟩
    rw [detect_trip_arcs, if_pos (List.any_eq_true.mpr ⟨p, hp, hloc⟩)]

/-- Every arc of the unified detector carries source `unified_ai_pattern`, a
nonempty recorded photo-id list, and a well-ordered date range. -/
theorem ai_arcs_facts (fmtMonth : Int → String) (dbCats : List Nat → List CatRow)
    (dbEmos : List Nat → List EmoRow) (chapter : ChapterRec) (photos : List Image) :
    ∀ arc ∈ detect_ai_pattern_arcs fmtMonth dbCats dbEmos chapter photos,
      arc.generation_source = "unified_ai_pattern" ∧
      arc.meta_photo_ids ≠ [] ∧
      ∃ s e, arc.start_date = some s ∧ arc.end_date = some e ∧ s ≤ e := by
  intro arc harc
  rw [detect_ai_pattern_arcs] at harc
  rcases foldl_optAppend_mem _ _ _ _ harc with h | ⟨cluster, hcl, hf⟩
  · exact absurd h (List.not_mem_nil arc)
  · obtain ⟨_, hnil, hsorted⟩ := cluster_by_time_facts photos 30 3 cluster hcl
    rcases cluster with _ | ⟨first, rest⟩
    · exact absurd rfl hnil
    · rw [analyze_cluster_with_unified_patterns] at hf
      simp only [Option.some.injEq] at hf
      subst hf
      refine ⟨rfl, by simp, first.capture_date,
        ((first :: rest).getLast (List.cons_ne_nil _ _)).capture_date, rfl, rfl, ?_⟩
      exact sorted_le_getLast (first :: rest) (List.cons_ne_nil _ _) hsorted first
        (List.mem_cons_self first rest)

/-- Every arc of the temporal fallback detector has at least 5 photos,
source `time_cluster`, the generic `moments` story type, and a well-ordered
date range. -/
theorem temporal_arcs_facts (fmtMonth : Int → String) (chapter : ChapterRec)
    (photos : List Image) :
    ∀ arc ∈ detect_temporal_arcs fmtMonth chapter photos,
      5 ≤ arc.photo_count ∧ arc.generation_source = "time_cluster" ∧
      arc.story_type = "moments" ∧
      ∃ s e, arc.start_date = some s ∧ arc.end_date = some e ∧ s ≤ e := by
  rw [detect_temporal_arcs]
  refine foldl_mem_invariant _ _ ?_ _ [] (by intro x hx; cases hx)
  intro acc cluster x hx
  dsimp only at hx
  split at hx
  · exact Or.inl hx
  · next hlen =>
    rcases cluster with _ | ⟨first, rest⟩
    · exact Or.inl hx
    · rcases List.mem_append.mp hx with h | h
      · exact Or.inl h
      · rw [List.mem_singleton.mp h]
        refine Or.inr ⟨by simpa using Nat.le_of_not_lt hlen, rfl, rfl,
          min_capture first rest, max_capture first rest, rfl, rfl,
          min_capture_le_max_capture first rest⟩

/-- The orchestration on successful step-1/2/4 results and an arbitrary
step-3 outcome. -/
theorem run_arc_detection_ok (l t tmp : List Story) (ai : Except String (List Story)) :
    run_arc_detection (.ok l) (.ok t) ai (.ok tmp) =
      (if (ai_result_arcs ai).length = 0 ∧ (l ++ t ++ ai_result_arcs ai).length < 2
       then .ok (l ++ t ++ ai_result_arcs ai ++ tmp.take 2, true)
       else .ok (l ++ t ++ ai_result_arcs ai, false)) := by
  cases ai with
  | ok arcs =>
    by_cases h : arcs.length = 0 ∧ (l ++ t ++ arcs).length < 2 <;>
      simp [run_arc_detection, ai_result_arcs, Bind.bind, Except.bind, h] <;>
      try (split <;> rfl)
  | error e =>
    by_cases h : (l ++ t ++ ([] : List Story)).length < 2 <;>
      simp [run_arc_detection, ai_result_arcs, Bind.bind, Except.bind, h] <;>
      try (split <;> rfl)

/-! ## C3: temporal fallback engagement -/

/-- C3: the temporal fallback runs exactly when step 3 contributed zero arcs
and the earlier steps produced fewer than two arcs in total; when it runs it
appends at most two arcs of the temporal detector, which bursts with gap ≤ 7
days and skips bursts of fewer than 5 photos. -/
theorem temporal_fallback_iff_and_limits (fmtMonth : Int → String)
    (chapter : ChapterRec) (photos : List Image) (life trips : List Story)
    (ai : Except String (List Story)) :
    run_arc_detection (.ok life) (.ok trips) ai
        (.ok (detect_temporal_arcs fmtMonth chapter photos)) =
      (if (ai_result_arcs ai).length = 0 ∧
          (life ++ trips ++ ai_result_arcs ai).length < 2 then
        .ok (life ++ trips ++ ai_result_arcs ai ++
          (detect_temporal_arcs fmtMonth chapter photos).take 2, true)
      else .ok (life ++ trips ++ ai_result_arcs ai, false)) ∧
    ((detect_temporal_arcs fmtMonth chapter photos).take 2).length ≤ 2 ∧
    (∀ arc ∈ detect_temporal_arcs fmtMonth chapter photos,
      5 ≤ arc.photo_count ∧ arc.generation_source = "time_cluster" ∧
      arc.story_type = "moments") := by
  refine ⟨?_, ?_, ?_⟩
  · exact run_arc_detection_ok life trips _ ai
  · exact le_trans (List.length_take_le 2 _) (le_refl 2)
  · intro arc harc
    obtain ⟨h1, h2, h3, _⟩ := temporal_arcs_facts fmtMonth chapter photos arc harc
    exact ⟨h1, h2, h3⟩

/-! ## C9: exception handling of the sub-detectors -/

/-- C9 (counterexample): an exception in the step-1 life-event sub-detector
propagates out of the orchestration — it is not caught, so not every
sub-detector failure is tolerated. -/
theorem life_event_detector_exception_propagates :
    run_arc_detection (.error "boom") (.ok []) (.ok []) (.ok []) =
      .error "boom" := rfl

/-- C9 (amended): only a failure of the step-3 unified detector is caught —
it is treated exactly as that detector returning zero arcs, so the remaining
logic (including the temporal fallback) proceeds unchanged; failures of the
step-1, step-2 or step-4 detectors propagate. -/
theorem ai_failure_treated_as_zero_arcs (life trips temporal : Except String (List Story))
    (e : String) :
    run_arc_detection life trips (.error e) temporal =
      run_arc_detection life trips (.ok []) temporal ∧
    run_arc_detection (.error e) trips (.ok []) temporal = .error e ∧
    (∀ l : List Story,
      run_arc_detection (.ok l) (.error e) (.ok []) temporal = .error e) ∧
    (∀ l t : List Story, (l ++ t).length < 2 →
      run_arc_detection (.ok l) (.ok t) (.ok []) (.error e) = .error e) := by
  refine ⟨?_, rfl, fun l => rfl, ?_⟩
  · cases life with
    | error el => rfl
    | ok l =>
      cases trips with
      | error et => rfl
      | ok t => rfl
  · intro l t hlt
    have hlen : l.length + t.length < 2 := by simpa using hlt
    simp [run_arc_detection, Bind.bind, Except.bind, hlen]

/-! ## C5: arc date ranges and the photo-attachment step -/

/-- Closed form of the full pipeline on a nonempty chapter photo set: any
location row makes the (uncaught) step-2 exception escape; otherwise step 2
contributes nothing and the life-event, unified and fallback arcs remain. -/
theorem detect_story_arcs_for_chapter_eq (fmtMonth : Int → String)
    (dbCats : List Nat → List CatRow) (dbEmos : List Nat → List EmoRow)
    (chapter : ChapterRec) (life_events : List LifeEvent)
    (eventPhotos : Nat → List Image) (photos : List Image) (hp : photos ≠ []) :
    detect_story_arcs_for_chapter fmtMonth dbCats dbEmos chapter life_events
        eventPhotos photos =
      (if photos.any (fun p => p.location.isSome) then .error "AttributeError"
       else if (detect_ai_pattern_arcs fmtMonth dbCats dbEmos chapter photos).length = 0 ∧
          (detect_life_event_arcs chapter life_events eventPhotos ++
            detect_ai_pattern_arcs fmtMonth dbCats dbEmos chapter photos).length < 2
       then .ok (detect_life_event_arcs chapter life_events eventPhotos ++
          detect_ai_pattern_arcs fmtMonth dbCats dbEmos chapter photos ++
          (detect_temporal_arcs fmtMonth chapter photos).take 2, true)
       else .ok (detect_life_event_arcs chapter life_events eventPhotos ++
          detect_ai_pattern_arcs fmtMonth dbCats dbEmos chapter photos, false)) := by
  rw [detect_story_arcs_for_chapter, if_neg hp, detect_trip_arcs]
  by_cases hloc : photos.any (fun p => p.location.isSome) = true
  · rw [if_pos hloc, if_pos hloc]
    rfl
  · rw [if_neg hloc, if_neg hloc, run_arc_detection_ok]
    simp only [ai_result_arcs, List.append_nil]

/-- C5 (counterexample): a life-event arc has range `[event_date, event_date]`
but the attachment step re-queries the event's linked photos, which need not
fall in that range — here the linked photo was captured 40 days after the
event, outside `[0, 0]`. -/
theorem life_event_arc_photo_outside_range :
    ((detect_story_arcs_for_chapter (fun _ => "M") (fun _ => []) (fun _ => [])
        ⟨1, 1, none, none⟩ [⟨5, 1, "wedding", "W", "d", 0⟩]
        (fun i => if i = 5 then [⟨10, 3456000, none⟩] else [])
        [⟨10, 3456000, none⟩]).map
      (fun r => r.1.map
        (fun arc => (arc.generation_source, arc.start_date, arc.end_date,
          (photos_for_arc [⟨10, 3456000, none⟩]
            (fun i => if i = 5 then [⟨10, 3456000, none⟩] else []) arc).map
              (fun p => p.capture_date))))) =
      .ok [("life_event", some 0, some 0, [3456000])] := by rfl

/-- C5 (amended): `end_date ≥ start_date` and the in-range attachment of
temporal-fallback arcs hold, but the two other detector families differ from
the claim.  Life-event arcs attach the event's linked photos with no date
filter (the counterexample), and trip arcs do not exist at all: the trip
detector indexes the `Location` ORM row like a dict, so it raises
`AttributeError` whenever any chapter photo has a location row — an uncaught
exception that escapes `detect_story_arcs_for_chapter` — and returns no
arcs otherwise.  In full: detection errors whenever some chapter photo has a
location row; and on a successful run every arc has `end_date ≥ start_date`,
no arc is a trip arc, temporal-fallback arcs attach only photos captured
inside `[start_date, end_date]`, and unified-pattern arcs carry a nonempty
photo-id list and attach exactly the photos with those ids. -/
theorem arc_dates_and_attachment_spec (fmtMonth : Int → String)
    (dbCats : List Nat → List CatRow) (dbEmos : List Nat → List EmoRow)
    (chapter : ChapterRec) (life_events : List LifeEvent)
    (eventPhotos : Nat → List Image) (photos dbPhotos : List Image) :
    ((∃ p ∈ photos, p.location.isSome) →
      detect_story_arcs_for_chapter fmtMonth dbCats dbEmos chapter life_events
        eventPhotos photos = .error "AttributeError") ∧
    (∀ arcs fb, detect_story_arcs_for_chapter fmtMonth dbCats dbEmos chapter
        life_events eventPhotos photos = .ok (arcs, fb) →
      ∀ arc ∈ arcs,
        (∀ s e, arc.start_date = some s → arc.end_date = some e → s ≤ e) ∧
        arc.generation_source ≠ "trip_cluster" ∧
        (arc.generation_source = "time_cluster" →
          ∀ p ∈ photos_for_arc dbPhotos eventPhotos arc,
            ∀ s e, arc.start_date = some s → arc.end_date = some e →
              s ≤ p.capture_date ∧ p.capture_date ≤ e) ∧
        (arc.generation_source = "unified_ai_pattern" →
          arc.meta_photo_ids ≠ [] ∧
          photos_for_arc dbPhotos eventPhotos arc =
            sort_by_capture (dbPhotos.filter
              (fun q => arc.meta_photo_ids.contains q.id)))) := by
  constructor
  · rintro ⟨p, hp, hloc⟩
    have hne : photos ≠ [] := by
      intro h; rw [h] at hp; exact absurd hp (List.not_mem_nil p)
    rw [detect_story_arcs_for_chapter, if_neg hne, detect_trip_arcs,
      if_pos (List.any_eq_true.mpr ⟨p, hp, hloc⟩)]
    rfl
  intro arcs fb hok arc harc
  by_cases hp : photos = []
  · rw [detect_story_arcs_for_chapter, if_pos hp] at hok
    have h := Except.ok.inj hok
    injection h with h1 h2
    rw [← h1] at harc
    exact absurd harc (List.not_mem_nil arc)
  rw [detect_story_arcs_for_chapter_eq fmtMonth dbCats dbEmos chapter
    life_events eventPhotos photos hp] at hok
  by_cases hloc : photos.any (fun p => p.location.isSome) = true
  · rw [if_pos hloc] at hok
    cases hok
  rw [if_neg hloc] at hok
  have hmem : arc ∈ detect_life_event_arcs chapter life_events eventPhotos ∨
      arc ∈ detect_ai_pattern_arcs fmtMonth dbCats dbEmos chapter photos ∨
      arc ∈ detect_temporal_arcs fmtMonth chapter photos := by
    split at hok
    · have h := Except.ok.inj hok
      injection h with h1 h2
      rw [← h1] at harc
      rcases List.mem_append.mp harc with h' | h'
      · rcases List.mem_append.mp h' with h'' | h''
        · exact Or.inl h''
        · exact Or.inr (Or.inl h'')
      · exact Or.inr (Or.inr (List.mem_of_mem_take h'))
    · have h := Except.ok.inj hok
      injection h with h1 h2
      rw [← h1] at harc
      rcases List.mem_append.mp harc with h' | h'
      · exact Or.inl h'
      · exact Or.inr (Or.inl h')
  have hrange : ∀ s e, arc.start_date = some s → arc.end_date = some e →
      arc.generation_source = "time_cluster" →
      ∀ p ∈ photos_for_arc dbPhotos eventPhotos arc,
        s ≤ p.capture_date ∧ p.capture_date ≤ e := by
    intro s e hs he hsource p hpmem
    have h1 : ¬ arc.generation_source = "life_event" := by rw [hsource]; decide
    have h2 : ¬ (arc.generation_source = "ai_pattern" ∨
        arc.generation_source = "unified_ai_pattern") := by rw [hsource]; decide
    rw [photos_for_arc, if_neg h1, if_neg h2, hs, he] at hpmem
    have := ((sort_by_capture_perm _).mem_iff).mp hpmem
    have hfil := List.of_mem_filter this
    simp only [Bool.and_eq_true, decide_eq_true_eq] at hfil
    exact hfil
  rcases hmem with h | h | h
  · obtain ⟨hsrc, d, hs, he⟩ := life_event_arcs_facts chapter life_events eventPhotos arc h
    refine ⟨?_, ?_, ?_, ?_⟩
    · intro s e hs' he'
      rw [hs] at hs'; rw [he] at he'
      have h1 := Option.some.inj hs'
      have h2 := Option.some.inj he'
      omega
    · rw [hsrc]; decide
    · intro hsource
      rw [hsrc] at hsource
      exact absurd hsource (by decide)
    · intro hsource
      rw [hsrc] at hsource
      exact absurd hsource (by decide)
  · obtain ⟨hsrc, hids, s, e, hs, he, hle⟩ :=
      ai_arcs_facts fmtMonth dbCats dbEmos chapter photos arc h
    refine ⟨?_, ?_, ?_, ?_⟩
    · intro s' e' hs' he'
      rw [hs] at hs'; rw [he] at he'
      have h1 := Option.some.inj hs'
      have h2 := Option.some.inj he'
      omega
    · rw [hsrc]; decide
    · intro hsource
      rw [hsrc] at hsource
      exact absurd hsource (by decide)
    · intro _
      refine ⟨hids, ?_⟩
      have h1 : ¬ arc.generation_source = "life_event" := by rw [hsrc]; decide
      have h2 : arc.generation_source = "ai_pattern" ∨
          arc.generation_source = "unified_ai_pattern" := Or.inr hsrc
      rw [photos_for_arc, if_neg h1, if_pos h2, if_pos hids]
  · obtain ⟨_, hsrc, _, s, e, hs, he, hle⟩ :=
      temporal_arcs_facts fmtMonth chapter photos arc h
    refine ⟨?_, ?_, ?_, ?_⟩
    · intro s' e' hs' he'
      rw [hs] at hs'; rw [he] at he'
      have h1 := Option.some.inj hs'
      have h2 := Option.some.inj he'
      omega
    · rw [hsrc]; decide
    · intro hsource p hpmem s' e' hs' he'
      exact hrange s' e' hs' he' hsource p hpmem
    · intro hsource
      rw [hsrc] at hsource
      exact absurd hsource (by decide)

/-- C5 witness: the amended statement applied twice — a chapter with one
geotagged photo makes detection raise, and the chapter whose only arc is a
wedding life-event arc exercises the successful-run conjunct. -/
theorem arc_dates_and_attachment_spec_witness :
    (detect_story_arcs_for_chapter (fun _ => "M") (fun _ => []) (fun _ => [])
        ⟨1, 1, none, none⟩ [] (fun _ => [])
        [⟨11, 0, some ⟨1, 2, none, none, none⟩⟩] = .error "AttributeError") ∧
    ((∀ s e, (Story.mk 1 1 "W" "d" "wedding" "event" (some 0) (some 0) 1
        "life_event" [] (some 5) [] [] none 0).start_date = some s →
      (Story.mk 1 1 "W" "d" "wedding" "event" (some 0) (some 0) 1
        "life_event" [] (some 5) [] [] none 0).end_date = some e → s ≤ e) ∧
    (Story.mk 1 1 "W" "d" "wedding" "event" (some 0) (some 0) 1
        "life_event" [] (some 5) [] [] none 0).generation_source ≠ "trip_cluster" ∧
    ((Story.mk 1 1 "W" "d" "wedding" "event" (some 0) (some 0) 1
        "life_event" [] (some 5) [] [] none 0).generation_source = "time_cluster" →
      ∀ p ∈ photos_for_arc [⟨10, 3456000, none⟩]
          (fun i => if i = 5 then [⟨10, 3456000, none⟩] else [])
          (Story.mk 1 1 "W" "d" "wedding" "event" (some 0) (some 0) 1
            "life_event" [] (some 5) [] [] none 0),
        ∀ s e, (Story.mk 1 1 "W" "d" "wedding" "event" (some 0) (some 0) 1
            "life_event" [] (some 5) [] [] none 0).start_date = some s →
          (Story.mk 1 1 "W" "d" "wedding" "event" (some 0) (some 0) 1
            "life_event" [] (some 5) [] [] none 0).end_date = some e →
          s ≤ p.capture_date ∧ p.capture_date ≤ e) ∧
    ((Story.mk 1 1 "W" "d" "wedding" "event" (some 0) (some 0) 1
        "life_event" [] (some 5) [] [] none 0).generation_source =
          "unified_ai_pattern" →
      (Story.mk 1 1 "W" "d" "wedding" "event" (some 0) (some 0) 1
        "life_event" [] (some 5) [] [] none 0).meta_photo_ids ≠ [] ∧
      photos_for_arc [⟨10, 3456000, none⟩]
          (fun i => if i = 5 then [⟨10, 3456000, none⟩] else [])
          (Story.mk 1 1 "W" "d" "wedding" "event" (some 0) (some 0) 1
            "life_event" [] (some 5) [] [] none 0) =
        sort_by_capture ([⟨10, 3456000, none⟩].filter
          (fun q => (Story.mk 1 1 "W" "d" "wedding" "event" (some 0) (some 0) 1
            "life_event" [] (some 5) [] [] none 0).meta_photo_ids.contains q.id)))) :=
  ⟨(arc_dates_and_attachment_spec (fun _ => "M") (fun _ => []) (fun _ => [])
      ⟨1, 1, none, none⟩ [] (fun _ => [])
      [⟨11, 0, some ⟨1, 2, none, none, none⟩⟩] []).1
      ⟨⟨11, 0, some ⟨1, 2, none, none, none⟩⟩, List.mem_singleton.mpr rfl, rfl⟩,
   (arc_dates_and_attachment_spec (fun _ => "M") (fun _ => []) (fun _ => [])
      ⟨1, 1, none, none⟩ [⟨5, 1, "wedding", "W", "d", 0⟩]
      (fun i => if i = 5 then [⟨10, 3456000, none⟩] else [])
      [⟨10, 3456000, none⟩] [⟨10, 3456000, none⟩]).2
      [Story.mk 1 1 "W" "d" "wedding" "event" (some 0) (some 0) 1
        "life_event" [] (some 5) [] [] none 0] true rfl
      (Story.mk 1 1 "W" "d" "wedding" "event" (some 0) (some 0) 1
        "life_event" [] (some 5) [] [] none 0) (List.mem_singleton.mpr rfl)⟩

/-! ## C4: chapter generation mutates photo records -/

/-- C4 (counterexample): a photo with no capture date but an upload date has
its stored `capture_date` set to the upload date by
`generate_chapters_for_user` (lines 298-300, committed at line 324), so the
photo record is not the same after the call. -/
theorem generate_chapters_mutates_capture_date :
    (generate_chapters_for_user ⟨1, none⟩ [⟨3, none, some ⟨2020, 1, 1⟩⟩]
        (fun _ => none) [] false).2 =
      [⟨3, some ⟨2020, 1, 1⟩, some ⟨2020, 1, 1⟩⟩] ∧
    (⟨3, some ⟨2020, 1, 1⟩, some ⟨2020, 1, 1⟩⟩ : PhotoRec) ≠
      ⟨3, none, some ⟨2020, 1, 1⟩⟩ := by decide

theorem rel_apply_capture_fallback (p : PhotoRec) :
    (apply_capture_fallback p).id = p.id ∧
    (apply_capture_fallback p).upload_date = p.upload_date ∧
    (p.capture_date ≠ none →
      (apply_capture_fallback p).capture_date = p.capture_date) ∧
    (p.capture_date = none →
      (apply_capture_fallback p).capture_date = none ∨
      (apply_capture_fallback p).capture_date = p.upload_date) := by
  rw [apply_capture_fallback]
  split
  · next h => exact ⟨rfl, rfl, fun hc => absurd h.1 hc, fun _ => Or.inr rfl⟩
  · exact ⟨rfl, rfl, fun _ => rfl, fun hc => Or.inl hc⟩

/-- C4 (amended: the only mutation is the capture-date fallback): after
`generate_chapters_for_user`, every photo record keeps its id and upload
date; a photo that had a capture date is entirely unchanged; a photo without
one either stays without or receives the upload date as its stored
capture date. -/
theorem generate_chapters_photo_mutation_spec (user : UserRec)
    (stored : List PhotoRec) (dbD : List Nat → Option String)
    (existing : List ChapterOut) (force : Bool) :
    List.Forall₂ (fun p q => q.id = p.id ∧ q.upload_date = p.upload_date ∧
        (p.capture_date ≠ none → q.capture_date = p.capture_date) ∧
        (p.capture_date = none →
          q.capture_date = none ∨ q.capture_date = p.upload_date))
      stored (generate_chapters_for_user user stored dbD existing force).2 := by
  have hsame : List.Forall₂ (fun p q => q.id = p.id ∧ q.upload_date = p.upload_date ∧
      (p.capture_date ≠ none → q.capture_date = p.capture_date) ∧
      (p.capture_date = none →
        q.capture_date = none ∨ q.capture_date = p.upload_date))
      stored stored := by
    rw [List.forall₂_same]
    intro p _
    exact ⟨rfl, rfl, fun _ => rfl, fun hc => Or.inl hc⟩
  have hmap : List.Forall₂ (fun p q => q.id = p.id ∧ q.upload_date = p.upload_date ∧
      (p.capture_date ≠ none → q.capture_date = p.capture_date) ∧
      (p.capture_date = none →
        q.capture_date = none ∨ q.capture_date = p.upload_date))
      stored (stored.map apply_capture_fallback) := by
    rw [List.forall₂_map_right_iff, List.forall₂_same]
    intro p _
    exact rel_apply_capture_fallback p
  rw [generate_chapters_for_user]
  split
  · exact hsame
  · split
    · exact hsame
    · dsimp only
      split
      · exact hmap
      · exact hmap

/-! ## C8: greedy spatial clustering and order independence -/

/-- C8 (counterexample): the clustering actually used by
`detect_spatial_patterns` is the greedy centroid loop, and it is
order-sensitive: the same three points clustered in two different orders
produce different partitions (the point with id 0 ends with ids `[0, 1]` in
one order and alone in the other). -/
theorem greedy_spatial_clustering_order_dependent :
    ([(⟨2, 18/10000, 0⟩ : GeoPoint), ⟨1, 9/10000, 0⟩, ⟨0, 0, 0⟩] =
      [(⟨0, 0, 0⟩ : GeoPoint), ⟨1, 9/10000, 0⟩, ⟨2, 18/10000, 0⟩].reverse) ∧
    (spatial_clusters [⟨0, 0, 0⟩, ⟨1, 9/10000, 0⟩, ⟨2, 18/10000, 0⟩]).map
      (fun c => c.map (fun p => p.id)) = [[0, 1], [2]] ∧
    (spatial_clusters [⟨2, 18/10000, 0⟩, ⟨1, 9/10000, 0⟩, ⟨0, 0, 0⟩]).map
      (fun c => c.map (fun p => p.id)) = [[2, 1], [0]] := by
  refine ⟨rfl, ?_, ?_⟩ <;>
    norm_num [spatial_clusters, List.foldl, add_to_clusters, within_threshold,
      PROXIMITY_THRESHOLD]

theorem add_to_clusters_join (p : GeoPoint) :
    ∀ cs : List (List GeoPoint),
      (add_to_clusters cs p).flatten.Perm (cs.flatten ++ [p]) := by
  intro cs
  induction cs with
  | nil => simp [add_to_clusters]
  | cons c cs ih =>
    rw [add_to_clusters]
    split
    · simp only [List.flatten_cons, List.append_assoc]
      exact List.Perm.append_left c List.perm_append_comm
    · simp only [List.flatten_cons, List.append_assoc]
      exact List.Perm.append_left c ih

/-- C8 (amended: the spatial clustering used for global location patterns is
the greedy centroid algorithm, which is order-sensitive, not
order-independent): it always produces a partition — nonempty clusters whose
concatenation is a permutation of the input points, so each point carries
exactly one cluster label. -/
theorem greedy_spatial_clustering_partition (points : List GeoPoint) :
    (spatial_clusters points).flatten.Perm points ∧
    ∀ c ∈ spatial_clusters points, c ≠ [] := by
  constructor
  · rw [spatial_clusters]
    have main : ∀ (pts : List GeoPoint) (acc : List (List GeoPoint)),
        (pts.foldl add_to_clusters acc).flatten.Perm (acc.flatten ++ pts) := by
      intro pts
      induction pts with
      | nil => intro acc; simp
      | cons p pts ih =>
        intro acc
        rw [List.foldl_cons]
        refine (ih (add_to_clusters acc p)).trans ?_
        have h1 := add_to_clusters_join p acc
        refine (h1.append_right pts).trans ?_
        rw [List.append_assoc]
        exact List.Perm.refl _
    simpa using main points []
  · rw [spatial_clusters]
    refine foldl_mem_invariant _ _ ?_ points [] (by intro c hc; cases hc)
    intro acc p c hc
    clear points
    induction acc with
    | nil =>
      rw [add_to_clusters] at hc
      rw [List.mem_singleton.mp hc]
      exact Or.inr (List.cons_ne_nil p [])
    | cons c0 cs ih =>
      rw [add_to_clusters] at hc
      split at hc
      · rcases List.mem_cons.mp hc with rfl | h
        · exact Or.inr (by simp)
        · exact Or.inl (List.mem_cons_of_mem c0 h)
      · rcases List.mem_cons.mp hc with rfl | h
        · exact Or.inl (List.mem_cons_self c cs)
        · rcases ih h with h' | h'
          · exact Or.inl (List.mem_cons_of_mem c0 h')
          · exact Or.inr h'

/-! ## Insertion-ordered dictionary lemmas (for C2 and C7) -/

theorem dlookup_cons [DecidableEq κ] (k k0 : κ) (ys : List α)
    (d : List (κ × List α)) :
    dlookup k ((k0, ys) :: d) = if k0 = k then ys else dlookup k d := by
  by_cases h : k0 = k
  · rw [if_pos h, dlookup, List.find?_cons_of_pos _ (by simpa using h)]
    rfl
  · rw [if_neg h, dlookup, List.find?_cons_of_neg _ (by simpa using h)]
    rfl

theorem dlookup_dextend [DecidableEq κ] (k k' : κ) (xs : List α) :
    ∀ d : List (κ × List α),
      dlookup k (dextend k' xs d) =
        if k = k' then dlookup k d ++ xs else dlookup k d := by
  intro d
  induction d with
  | nil =>
    by_cases h : k = k'
    · rw [if_pos h, dextend, dlookup_cons, if_pos h.symm]
      rfl
    · rw [if_neg h, dextend, dlookup_cons, if_neg (fun hh => h hh.symm)]
  | cons e d ih =>
    obtain ⟨k0, ys⟩ := e
    rw [dextend]
    by_cases h0 : k' = k0
    · subst h0
      rw [if_pos rfl, dlookup_cons, dlookup_cons]
      by_cases h : k' = k
      · rw [if_pos h, if_pos h, if_pos h.symm]
      · rw [if_neg h, if_neg h, if_neg (fun hh => h hh.symm)]
    · rw [if_neg h0, dlookup_cons, dlookup_cons]
      by_cases h1 : k0 = k
      · rw [if_pos h1, if_pos h1, if_neg (fun hh => h0 (h1.trans hh).symm)]
      · rw [if_neg h1, if_neg h1, ih]

theorem dextend_keys [DecidableEq κ] (k : κ) (xs : List α) :
    ∀ d : List (κ × List α),
      (dextend k xs d).map Prod.fst =
        if k ∈ d.map Prod.fst then d.map Prod.fst
        else d.map Prod.fst ++ [k] := by
  intro d
  induction d with
  | nil => simp [dextend]
  | cons e d ih =>
    obtain ⟨k0, ys⟩ := e
    rw [dextend]
    by_cases h0 : k = k0
    · subst h0
      rw [if_pos rfl]
      simp
    · rw [if_neg h0]
      simp only [List.map_cons, List.mem_cons]
      rw [ih]
      by_cases h1 : k ∈ d.map Prod.fst
      · rw [if_pos h1, if_pos (Or.inr h1)]
      · rw [if_neg h1, if_neg (by
          intro h
          rcases h with h | h
          · exact h0 h
          · exact h1 h)]
        rfl

theorem dextend_keys_nodup [DecidableEq κ] (k : κ) (xs : List α)
    (d : List (κ × List α)) (h : (d.map Prod.fst).Nodup) :
    ((dextend k xs d).map Prod.fst).Nodup := by
  rw [dextend_keys]
  split
  · exact h
  · next hk => simp [List.nodup_append, h, hk]

theorem mem_dict_dlookup [DecidableEq κ] :
    ∀ (d : List (κ × List α)), ((d.map Prod.fst).Nodup) →
      ∀ (k : κ) (g : List α), (k, g) ∈ d → dlookup k d = g := by
  intro d
  induction d with
  | nil => intro _ k g h; cases h
  | cons e d ih =>
    obtain ⟨k0, ys⟩ := e
    intro hnd k g hmem
    rcases List.mem_cons.mp hmem with h | h
    · obtain ⟨h1, h2⟩ := Prod.mk.injEq .. ▸ h
      rw [dlookup_cons, if_pos h1.symm, h2]
    · by_cases h0 : k0 = k
      · exfalso
        have : k ∈ d.map Prod.fst :=
          List.mem_map_of_mem Prod.fst h
        rw [List.map_cons, List.nodup_cons] at hnd
        exact hnd.1 (h0 ▸ this)
      · rw [dlookup_cons, if_neg h0]
        exact ih (by rw [List.map_cons, List.nodup_cons] at hnd; exact hnd.2) k g h

theorem dlookup_mem [DecidableEq κ] :
    ∀ (d : List (κ × List α)) (k : κ), dlookup k d ≠ [] →
      (k, dlookup k d) ∈ d := by
  intro d
  induction d with
  | nil => intro k h; exact absurd rfl h
  | cons e d ih =>
    obtain ⟨k0, ys⟩ := e
    intro k h
    by_cases h0 : k0 = k
    · subst h0
      rw [dlookup_cons, if_pos rfl] at h ⊢
      exact List.mem_cons_self _ _
    · rw [dlookup_cons, if_neg h0] at h ⊢
      exact List.mem_cons_of_mem _ (ih k h)

theorem flatten_map_singleton :
    ∀ l : List α, (l.map (fun x => [x])).flatten = l := by
  intro l
  induction l with
  | nil => rfl
  | cons a l ih => simp [ih]

/-- Lookup after an insertion-ordered grouping fold: the group for `k` is
the accumulator's group followed by the values of the fold elements keyed
`k`, in input order. -/
theorem dlookup_foldl_extend [DecidableEq κ] {β α : Type _} (keyf : β → Option κ)
    (val : β → List α) (step : List (κ × List α) → β → List (κ × List α))
    (hstep : ∀ d g, step d g =
      match keyf g with
      | some k => dextend k (val g) d
      | none => d) :
    ∀ (l : List β) (d0 : List (κ × List α)) (k : κ),
      dlookup k (l.foldl step d0) =
        dlookup k d0 ++
          ((l.filter (fun g => decide (keyf g = some k))).map val).flatten := by
  intro l
  induction l with
  | nil => intro d0 k; simp
  | cons g l ih =>
    intro d0 k
    rw [List.foldl_cons, hstep]
    cases hkg : keyf g with
    | none =>
      rw [ih]
      simp [List.filter_cons, hkg]
    | some k' =>
      rw [ih, dlookup_dextend]
      by_cases h : k = k'
      · subst h
        rw [if_pos rfl]
        simp [List.filter_cons, hkg, List.append_assoc]
      · rw [if_neg h]
        have : (decide (keyf g = some k)) = false := by
          simp [hkg]
          exact fun hh => h hh.symm
        simp [List.filter_cons, this]

theorem nodup_keys_foldl [DecidableEq κ] {β α : Type _} (keyf : β → Option κ)
    (val : β → List α) (step : List (κ × List α) → β → List (κ × List α))
    (hstep : ∀ d g, step d g =
      match keyf g with
      | some k => dextend k (val g) d
      | none => d) :
    ∀ (l : List β) (d0 : List (κ × List α)), ((d0.map Prod.fst).Nodup) →
      ((l.foldl step d0).map Prod.fst).Nodup := by
  intro l
  induction l with
  | nil => intro d0 h; exact h
  | cons g l ih =>
    intro d0 h
    rw [List.foldl_cons, hstep]
    cases hkg : keyf g with
    | none => exact ih d0 h
    | some k' => exact ih _ (dextend_keys_nodup k' (val g) d0 h)

/-- Produced elements of an optional-append fold: every list element mapped
to `some b` contributes `b` to the result. -/
theorem foldl_optAppend_mem_of {α β : Type _} (f : α → Option β) :
    ∀ (l : List α) (acc : List β) (a : α) (b : β), a ∈ l → f a = some b →
      b ∈ l.foldl (fun acc a => (f a).elim acc (fun x => acc ++ [x])) acc := by
  intro l
  induction l with
  | nil => intro acc a b h; cases h
  | cons a' l ih =>
    intro acc a b hmem hfa
    rw [List.foldl_cons]
    rcases List.mem_cons.mp hmem with rfl | hmem
    · refine foldl_mem_mono _ ?_ l _ b ?_
      · intro acc' a'' x hx
        cases hfa' : f a'' with
        | none => simpa [hfa'] using hx
        | some y => simp [hfa']; exact Or.inl hx
      · simp [hfa]
    · exact ih _ a b hmem hfa

/-! ## C7: annual temporal patterns -/

/-- The (month, day) dictionary of the annual pass groups exactly the dated
images with that (month, day), in input order. -/
theorem annual_dict_lookup (dated : List (PatImage × CDate)) (k : Nat × Nat) :
    dlookup k (dated.foldl (fun d pd => dextend (pd.2.month, pd.2.day) [pd] d)
        ([] : List ((Nat × Nat) × List (PatImage × CDate)))) =
      dated.filter (fun pd => decide ((pd.2.month, pd.2.day) = k)) := by
  rw [dlookup_foldl_extend (fun pd => some (pd.2.month, pd.2.day))
    (fun pd => [pd]) _ (fun d g => rfl) dated [] k]
  rw [show dlookup k ([] : List ((Nat × Nat) × List (PatImage × CDate))) = []
    from rfl]
  rw [List.nil_append, flatten_map_singleton]
  exact List.filter_congr (fun pd _ => by simp)

theorem annual_dict_keys_nodup (dated : List (PatImage × CDate)) :
    (((dated.foldl (fun d pd => dextend (pd.2.month, pd.2.day) [pd] d)
        ([] : List ((Nat × Nat) × List (PatImage × CDate)))).map
          Prod.fst)).Nodup :=
  nodup_keys_foldl (fun pd => some (pd.2.month, pd.2.day)) (fun pd => [pd]) _
    (fun d g => rfl) dated [] List.nodup_nil

/-- Field values of a successfully built annual pattern. -/
theorem annual_pattern_of_eq (user_id : Nat)
    (g : (Nat × Nat) × List (PatImage × CDate)) (pat : Pattern)
    (h : annual_pattern_of user_id g = some pat) :
    2 ≤ g.2.length ∧
    2 ≤ ((g.2.map (fun pd => pd.2.year)).eraseDups).length ∧
    pat.frequency = "annual" ∧ pat.month = g.1.1 ∧ pat.day = some g.1.2 ∧
    pat.confidence_score =
      min (95/100 : ℚ) (7/10 + (g.2.length : ℚ) * (1/10)) ∧
    pat.image_ids = g.2.map (fun pd => pd.1.id) := by
  rw [annual_pattern_of] at h
  split at h
  · next h2 =>
    dsimp only at h
    split at h
    · next hy =>
      obtain rfl := Option.some.inj h
      exact ⟨h2, hy, rfl, rfl, rfl, rfl, rfl⟩
    · exact absurd h (by simp)
  · exact absurd h (by simp)

theorem monthly_patterns_frequency (user_id : Nat)
    (dated : List (PatImage × CDate)) :
    ∀ pat ∈ monthly_patterns user_id dated, pat.frequency = "monthly" := by
  intro pat hmem
  rw [monthly_patterns] at hmem
  rcases foldl_optAppend_mem _ _ _ _ hmem with h | ⟨g, _, hg⟩
  · exact absurd h (List.not_mem_nil pat)
  · rw [monthly_pattern_of] at hg
    split at hg
    · dsimp only at hg
      split at hg
      · obtain rfl := Option.some.inj hg
        rfl
      · exact absurd hg (by simp)
    · exact absurd hg (by simp)

/-- C7: an annual temporal pattern is emitted for (month, day) iff that
group has ≥ 2 photos across ≥ 2 distinct years; every annual pattern's
confidence is `min(0.95, 0.7 + 0.1·count)` where `count` is the number of
photos linked to it. -/
theorem annual_pattern_iff_and_confidence (user_id : Nat)
    (images : List PatImage) (hdata : 3 ≤ (dated_images images).length)
    (m d : Nat) :
    ((∃ pat ∈ detect_temporal_patterns user_id images,
        pat.frequency = "annual" ∧ pat.month = m ∧ pat.day = some d) ↔
      (2 ≤ ((dated_images images).filter
          (fun pd => decide ((pd.2.month, pd.2.day) = (m, d)))).length ∧
       2 ≤ ((((dated_images images).filter
          (fun pd => decide ((pd.2.month, pd.2.day) = (m, d)))).map
            (fun pd => pd.2.year)).eraseDups).length)) ∧
    (∀ pat ∈ detect_temporal_patterns user_id images,
      pat.frequency = "annual" →
      pat.confidence_score =
        min (95/100 : ℚ) (7/10 + (pat.image_ids.length : ℚ) * (1/10))) := by
  have hsplit : detect_temporal_patterns user_id images =
      annual_patterns user_id (dated_images images) ++
        monthly_patterns user_id (dated_images images) := by
    rw [detect_temporal_patterns]
    rw [if_neg (by omega)]
  constructor
  · constructor
    · rintro ⟨pat, hmem, hfreq, hm, hd⟩
      rw [hsplit] at hmem
      rcases List.mem_append.mp hmem with hmem | hmem
      · rw [annual_patterns] at hmem
        rcases foldl_optAppend_mem _ _ _ _ hmem with h | ⟨g, hgmem, hg⟩
        · exact absurd h (List.not_mem_nil pat)
        · obtain ⟨h2, hy, _, hm', hd', _, _⟩ :=
            annual_pattern_of_eq user_id g pat hg
          have hk : g.1 = (m, d) := by
            have : g.1.1 = m := hm'.symm.trans hm
            have h2' : g.1.2 = d := by
              have := hd'.symm.trans hd
              exact Option.some.inj this
            exact Prod.ext this h2'
          obtain ⟨k, glist⟩ := g
          simp only at hk
          subst hk
          have hlook := mem_dict_dlookup _
            (annual_dict_keys_nodup (dated_images images)) (m, d) glist hgmem
          rw [annual_dict_lookup] at hlook
          rw [hlook]
          exact ⟨h2, hy⟩
      · exact absurd hfreq (by
          rw [monthly_patterns_frequency user_id (dated_images images) pat hmem]
          decide)
    · rintro ⟨h2, hy⟩
      have hne : (dated_images images).filter
          (fun pd => decide ((pd.2.month, pd.2.day) = (m, d))) ≠ [] := by
        intro h
        rw [h] at h2
        simp at h2
      have hlist := annual_dict_lookup (dated_images images) (m, d)
      have hmem : ((m, d), (dated_images images).filter
          (fun pd => decide ((pd.2.month, pd.2.day) = (m, d)))) ∈
          (dated_images images).foldl
            (fun d pd => dextend (pd.2.month, pd.2.day) [pd] d)
            ([] : List ((Nat × Nat) × List (PatImage × CDate))) := by
        have := dlookup_mem ((dated_images images).foldl
          (fun d pd => dextend (pd.2.month, pd.2.day) [pd] d) []) (m, d)
          (by rw [hlist]; exact hne)
        rw [hlist] at this
        exact this
      have hpat : annual_pattern_of user_id ((m, d),
          (dated_images images).filter
            (fun pd => decide ((pd.2.month, pd.2.day) = (m, d)))) =
          some { user_id := user_id
                 pattern_type := "temporal"
                 frequency := "annual"
                 month := m
                 day := some d
                 years := ((dated_images images).filter
                   (fun pd => decide ((pd.2.month, pd.2.day) = (m, d)))).map
                     (fun pd => pd.2.year)
                 confidence_score := min (95/100 : ℚ)
                   (7/10 + ((((dated_images images).filter
                     (fun pd => decide ((pd.2.month, pd.2.day) =
                       (m, d)))).length : ℚ)) * (1/10))
                 image_ids := ((dated_images images).filter
                   (fun pd => decide ((pd.2.month, pd.2.day) = (m, d)))).map
                     (fun pd => pd.1.id) } := by
        rw [annual_pattern_of]
        rw [if_pos h2]
        dsimp only
        rw [if_pos hy]
      obtain ⟨_, _, hfreq', hmonth', hday', _, _⟩ :=
        annual_pattern_of_eq user_id _ _ hpat
      refine ⟨_, ?_, hfreq', hmonth', hday'⟩
      rw [hsplit]
      refine List.mem_append_left _ ?_
      rw [annual_patterns]
      exact foldl_optAppend_mem_of _ _ [] _ _ hmem hpat
  · intro pat hmem hfreq
    rw [hsplit] at hmem
    rcases List.mem_append.mp hmem with hmem | hmem
    · rw [annual_patterns] at hmem
      rcases foldl_optAppend_mem _ _ _ _ hmem with h | ⟨g, _, hg⟩
      · exact absurd h (List.not_mem_nil pat)
      · obtain ⟨_, _, _, _, _, hconf, hids⟩ :=
          annual_pattern_of_eq user_id g pat hg
        rw [hconf, hids, List.length_map]
    · exact absurd hfreq (by
        rw [monthly_patterns_frequency user_id (dated_images images) pat hmem]
        decide)

/-- C7 witness: 4 photos on March 5 across 3 distinct years yield exactly
one annual pattern, and its confidence is `min(0.95, 0.7 + 0.4) = 0.95`. -/
theorem annual_pattern_witness :
    (((∃ pat ∈ detect_temporal_patterns 1
          [⟨1, some ⟨2020, 3, 5⟩⟩, ⟨2, some ⟨2021, 3, 5⟩⟩,
           ⟨3, some ⟨2021, 3, 5⟩⟩, ⟨4, some ⟨2022, 3, 5⟩⟩],
        pat.frequency = "annual" ∧ pat.month = 3 ∧ pat.day = some 5) ↔
      (2 ≤ ((dated_images
          [⟨1, some ⟨2020, 3, 5⟩⟩, ⟨2, some ⟨2021, 3, 5⟩⟩,
           ⟨3, some ⟨2021, 3, 5⟩⟩, ⟨4, some ⟨2022, 3, 5⟩⟩]).filter
          (fun pd => decide ((pd.2.month, pd.2.day) = (3, 5)))).length ∧
       2 ≤ ((((dated_images
          [⟨1, some ⟨2020, 3, 5⟩⟩, ⟨2, some ⟨2021, 3, 5⟩⟩,
           ⟨3, some ⟨2021, 3, 5⟩⟩, ⟨4, some ⟨2022, 3, 5⟩⟩]).filter
          (fun pd => decide ((pd.2.month, pd.2.day) = (3, 5)))).map
            (fun pd => pd.2.year)).eraseDups).length)) ∧
    (∀ pat ∈ detect_temporal_patterns 1
        [⟨1, some ⟨2020, 3, 5⟩⟩, ⟨2, some ⟨2021, 3, 5⟩⟩,
         ⟨3, some ⟨2021, 3, 5⟩⟩, ⟨4, some ⟨2022, 3, 5⟩⟩],
      pat.frequency = "annual" →
      pat.confidence_score =
        min (95/100 : ℚ) (7/10 + (pat.image_ids.length : ℚ) * (1/10)))) ∧
    (detect_temporal_patterns 1
        [⟨1, some ⟨2020, 3, 5⟩⟩, ⟨2, some ⟨2021, 3, 5⟩⟩,
         ⟨3, some ⟨2021, 3, 5⟩⟩, ⟨4, some ⟨2022, 3, 5⟩⟩]).countP
      (fun p => p.frequency == "annual") = 1 ∧
    (detect_temporal_patterns 1
        [⟨1, some ⟨2020, 3, 5⟩⟩, ⟨2, some ⟨2021, 3, 5⟩⟩,
         ⟨3, some ⟨2021, 3, 5⟩⟩, ⟨4, some ⟨2022, 3, 5⟩⟩]).map
      (fun p => (p.frequency, p.confidence_score)) =
      [("annual", 19/20), ("monthly", 4/5)] := by
  refine ⟨annual_pattern_iff_and_confidence 1 _ (by decide) 3 5, by decide, ?_⟩
  norm_num [detect_temporal_patterns, dated_images, annual_patterns,
    monthly_patterns, annual_pattern_of, monthly_pattern_of, dextend, dlookup,
    List.foldl, List.filterMap,
    show (2:Nat) ≤ ([2020, 2021, 2021, 2022] : List Int).eraseDups.length from
      by decide]

/-! ## C2: chapter assignment -/

theorem exists_unique_of_countP_eq_one {γ : Type _} {P : γ → Prop}
    [DecidablePred P] :
    ∀ {l : List γ}, l.countP (fun t => decide (P t)) = 1 →
      ∃! t, t ∈ l ∧ P t := by
  intro l
  induction l with
  | nil => intro h; simp [List.countP_nil] at h
  | cons a l ih =>
    intro h
    rw [List.countP_cons] at h
    by_cases hP : P a
    · have hz : l.countP (fun t => decide (P t)) = 0 := by
        simp only [decide_eq_true_eq] at h
        rw [if_pos hP] at h
        omega
      refine ⟨a, ⟨List.mem_cons_self a l, hP⟩, ?_⟩
      rintro t ⟨htmem, htP⟩
      rcases List.mem_cons.mp htmem with rfl | htmem
      · rfl
      · exfalso
        have := List.countP_eq_zero.mp hz t htmem
        simp [htP] at this
    · have h1 : l.countP (fun t => decide (P t)) = 1 := by
        simp only [decide_eq_true_eq] at h
        rw [if_neg hP] at h
        omega
      obtain ⟨t, ⟨htmem, htP⟩, huniq⟩ := ih h1
      refine ⟨t, ⟨List.mem_cons_of_mem a htmem, htP⟩, ?_⟩
      rintro t' ⟨ht'mem, ht'P⟩
      rcases List.mem_cons.mp ht'mem with rfl | ht'mem
      · exact absurd ht'P hP
      · exact huniq t' ⟨ht'mem, ht'P⟩

/-- How many merged triples contain a given photo: one for the running run
if the photo is already accumulated, plus one for each remaining key whose
group holds it (provided the photo does not occur under several keys). -/
theorem mergeAdjAux_countP (groups : List (Int × List PhotoRec)) (maxg : Int)
    (p : PhotoRec) :
    ∀ (ks : List Int) (start end_ : Int) (photos0 : List PhotoRec),
      (p ∈ photos0 → ∀ k ∈ ks, p ∉ dlookup k groups) →
      ks.countP (fun k => decide (p ∈ dlookup k groups)) ≤ 1 →
      (mergeAdjAux groups maxg start end_ photos0 ks).countP
          (fun t => decide (p ∈ t.2.2)) =
        (if p ∈ photos0 then 1 else 0) +
          ks.countP (fun k => decide (p ∈ dlookup k groups)) := by
  intro ks
  induction ks with
  | nil =>
    intro start end_ photos0 _ _
    rw [mergeAdjAux]
    by_cases hp : p ∈ photos0 <;> simp [List.countP_cons, hp]
  | cons k ks ih =>
    intro start end_ photos0 hmix hcount
    rw [List.countP_cons] at hcount ⊢
    rw [mergeAdjAux]
    split
    · -- merge into the running run
      have hmix' : p ∈ photos0 ++ dlookup k groups →
          ∀ k' ∈ ks, p ∉ dlookup k' groups := by
        intro hmem k' hk'
        rcases List.mem_append.mp hmem with hh | hh
        · exact hmix hh k' (List.mem_cons_of_mem k hk')
        · have hz : ks.countP (fun k => decide (p ∈ dlookup k groups)) = 0 := by
            have hd : (decide (p ∈ dlookup k groups)) = true := by simpa using hh
            simp only [hd, if_pos] at hcount
            omega
          have := List.countP_eq_zero.mp hz k' hk'
          simpa using this
      have hcount' : ks.countP (fun k => decide (p ∈ dlookup k groups)) ≤ 1 := by
        omega
      rw [ih start k (photos0 ++ dlookup k groups) hmix' hcount']
      by_cases h0 : p ∈ photos0
      · have h1 : p ∉ dlookup k groups :=
          hmix h0 k (List.mem_cons_self k ks)
        simp [h0, h1]
      · by_cases h1 : p ∈ dlookup k groups <;> simp [h0, h1] <;> omega
    · -- close the run and start a new one
      rw [List.countP_cons]
      have hmix' : p ∈ dlookup k groups → ∀ k' ∈ ks, p ∉ dlookup k' groups := by
        intro hh k' hk'
        have hz : ks.countP (fun k => decide (p ∈ dlookup k groups)) = 0 := by
          have hd : (decide (p ∈ dlookup k groups)) = true := by simpa using hh
          simp only [hd, if_pos] at hcount
          omega
        have := List.countP_eq_zero.mp hz k' hk'
        simpa using this
      have hcount' : ks.countP (fun k => decide (p ∈ dlookup k groups)) ≤ 1 := by
        omega
      rw [ih k k (dlookup k groups) hmix' hcount']
      by_cases h0 : p ∈ photos0 <;> by_cases h1 : p ∈ dlookup k groups <;>
        simp [h0, h1] <;> omega

/-- Every merged triple bounds the keys of the photos it holds. -/
theorem mergeAdjAux_range (groups : List (Int × List PhotoRec)) (maxg : Int)
    (keyOf : PhotoRec → Int)
    (hkey : ∀ (k : Int), ∀ q ∈ dlookup k groups, keyOf q = k) :
    ∀ (ks : List Int) (start end_ : Int) (photos0 : List PhotoRec),
      List.Chain' (· ≤ ·) (end_ :: ks) → start ≤ end_ →
      (∀ q ∈ photos0, start ≤ keyOf q ∧ keyOf q ≤ end_) →
      ∀ t ∈ mergeAdjAux groups maxg start end_ photos0 ks,
        ∀ q ∈ t.2.2, t.1 ≤ keyOf q ∧ keyOf q ≤ t.2.1 := by
  intro ks
  induction ks with
  | nil =>
    intro start end_ photos0 _ _ hphotos t ht q hq
    rw [mergeAdjAux] at ht
    obtain rfl := List.mem_singleton.mp ht
    exact hphotos q hq
  | cons k ks ih =>
    intro start end_ photos0 hchain hse hphotos t ht q hq
    rw [List.chain'_cons] at hchain
    rw [mergeAdjAux] at ht
    split at ht
    · refine ih start k (photos0 ++ dlookup k groups) hchain.2
        (hse.trans hchain.1) ?_ t ht q hq
      intro q' hq'
      rcases List.mem_append.mp hq' with hh | hh
      · exact ⟨(hphotos q' hh).1, (hphotos q' hh).2.trans hchain.1⟩
      · rw [hkey k q' hh]
        exact ⟨hse.trans hchain.1, le_refl k⟩
    · rcases List.mem_cons.mp ht with rfl | ht
      · exact hphotos q hq
      · refine ih k k (dlookup k groups) hchain.2 (le_refl k) ?_ t ht q hq
        intro q' hq'
        rw [hkey k q' hq']
        exact ⟨le_refl k, le_refl k⟩

theorem enumFrom_map_proj {α β γ : Type _} (F : Nat × α → β) (proj : β → γ)
    (G : α → γ) (h : ∀ (i : Nat) (a : α), proj (F (i, a)) = G a) :
    ∀ (l : List α) (n : Nat),
      ((List.enumFrom n l).map F).map proj = l.map G := by
  intro l
  induction l with
  | nil => intro n; rfl
  | cons a l ih =>
    intro n
    simp only [List.enumFrom, List.map_cons, h, ih]

theorem countP_eq_one_of_nodup_mem {α : Type _} [DecidableEq α] {a : α} :
    ∀ {l : List α}, l.Nodup → a ∈ l →
      l.countP (fun k => decide (k = a)) = 1 := by
  intro l
  induction l with
  | nil => intro _ h; cases h
  | cons b l ih =>
    intro hnd hmem
    rw [List.countP_cons, List.nodup_cons] at *
    rcases List.mem_cons.mp hmem with rfl | hmem
    · have hz : l.countP (fun k => decide (k = a)) = 0 := by
        rw [List.countP_eq_zero]
        intro x hx
        simp only [decide_eq_true_eq]
        intro hxb
        exact hnd.1 (hxb ▸ hx)
      simp [hz]
    · have h1 := ih hnd.2 hmem
      have hb : (decide (b = a)) = false := by
        simp only [decide_eq_false_iff_not]
        intro h
        exact hnd.1 (h ▸ hmem)
      simp [h1, hb]

theorem year_dict_lookup (photos : List PhotoRec) (k : Int) :
    dlookup k (group_photos_by_year photos) =
      photos.filter (fun q =>
        decide (q.capture_date.map CDate.year = some k)) := by
  rw [group_photos_by_year]
  rw [dlookup_foldl_extend (fun q => q.capture_date.map CDate.year)
    (fun q => [q]) _ (fun d q => by cases hq : q.capture_date <;> simp [hq]) photos [] k]
  rw [show dlookup k ([] : List (Int × List PhotoRec)) = [] from rfl,
    List.nil_append, flatten_map_singleton]

theorem year_dict_keys_nodup (photos : List PhotoRec) :
    ((group_photos_by_year photos).map (fun g => g.1)).Nodup := by
  rw [group_photos_by_year]
  exact nodup_keys_foldl (fun q => q.capture_date.map CDate.year)
    (fun q => [q]) _ (fun d q => by cases hq : q.capture_date <;> simp [hq])
    photos [] List.nodup_nil

/-- Year-path core of C2: a dated photo lands in exactly one merged year
chapter, whose year range contains its capture year. -/
theorem year_path_assignment (photos : List PhotoRec) (p : PhotoRec)
    (cd : CDate) (hp : p ∈ photos) (hcd : p.capture_date = some cd) :
    (∃! t : Int × Int × List PhotoRec,
      t ∈ merge_adjacent_groups (group_photos_by_year photos) 1 ∧ p ∈ t.2.2) ∧
    (∀ t : Int × Int × List PhotoRec,
      t ∈ merge_adjacent_groups (group_photos_by_year photos) 1 → p ∈ t.2.2 →
      t.1 ≤ cd.year ∧ cd.year ≤ t.2.1) := by
  have hkeyq : ∀ (k : Int) (q : PhotoRec),
      q ∈ dlookup k (group_photos_by_year photos) →
      q.capture_date.map CDate.year = some k := by
    intro k q hq
    rw [year_dict_lookup] at hq
    simpa using List.of_mem_filter hq
  have hpmem : p ∈ dlookup cd.year (group_photos_by_year photos) := by
    rw [year_dict_lookup]
    refine List.mem_filter.mpr ⟨hp, ?_⟩
    simp [hcd]
  have hpred : ∀ k : Int,
      p ∈ dlookup k (group_photos_by_year photos) ↔ k = cd.year := by
    intro k
    constructor
    · intro h
      have := hkeyq k p h
      rw [hcd] at this
      simpa using (Option.some.inj this).symm
    · rintro rfl
      exact hpmem
  have hperm := List.perm_insertionSort (r := ((· ≤ ·) : Int → Int → Prop))
    ((group_photos_by_year photos).map (fun g => g.1))
  have hnodup : (((group_photos_by_year photos).map
      (fun g => g.1)).insertionSort (· ≤ ·)).Nodup :=
    (hperm.nodup_iff).mpr (year_dict_keys_nodup photos)
  have hsorted := List.sorted_insertionSort (r := ((· ≤ ·) : Int → Int → Prop))
    ((group_photos_by_year photos).map (fun g => g.1))
  have hmemkey : cd.year ∈ (((group_photos_by_year photos).map
      (fun g => g.1)).insertionSort (· ≤ ·)) := by
    rw [hperm.mem_iff]
    have hne : dlookup cd.year (group_photos_by_year photos) ≠ [] := by
      intro h
      rw [h] at hpmem
      exact List.not_mem_nil p hpmem
    exact List.mem_map_of_mem (fun g => g.1) (dlookup_mem _ _ hne)
  have hcount1 : (((group_photos_by_year photos).map
      (fun g => g.1)).insertionSort (· ≤ ·)).countP
      (fun k => decide (p ∈ dlookup k (group_photos_by_year photos))) = 1 := by
    have hc := List.countP_congr
      (l := ((group_photos_by_year photos).map (fun g => g.1)).insertionSort
        (· ≤ ·))
      (p := fun k => decide (p ∈ dlookup k (group_photos_by_year photos)))
      (q := fun k => decide (k = cd.year))
      (fun k _ => by
        show decide (p ∈ dlookup k (group_photos_by_year photos)) = true ↔
          decide (k = cd.year) = true
        simp only [decide_eq_true_eq]
        exact hpred k)
    rw [hc]
    exact countP_eq_one_of_nodup_mem hnodup hmemkey
  rcases hsk : (((group_photos_by_year photos).map
      (fun g => g.1)).insertionSort (· ≤ ·)) with _ | ⟨k0, ks⟩
  · rw [hsk] at hmemkey
    exact absurd hmemkey (List.not_mem_nil cd.year)
  · have hmerged : merge_adjacent_groups (group_photos_by_year photos) 1 =
        mergeAdjAux (group_photos_by_year photos) 1 k0 k0
          (dlookup k0 (group_photos_by_year photos)) ks := by
      rw [merge_adjacent_groups, hsk]
    rw [hsk] at hcount1 hnodup hsorted hmemkey
    rw [List.countP_cons] at hcount1
    simp only [decide_eq_true_eq] at hcount1
    have hmix : p ∈ dlookup k0 (group_photos_by_year photos) →
        ∀ k ∈ ks, p ∉ dlookup k (group_photos_by_year photos) := by
      intro hh k hk
      rw [if_pos hh] at hcount1
      have hz : ks.countP (fun k =>
          decide (p ∈ dlookup k (group_photos_by_year photos))) = 0 := by
        omega
      have := List.countP_eq_zero.mp hz k hk
      simpa using this
    have hcount' : ks.countP (fun k =>
        decide (p ∈ dlookup k (group_photos_by_year photos))) ≤ 1 := by
      by_cases h0 : p ∈ dlookup k0 (group_photos_by_year photos)
      · rw [if_pos h0] at hcount1
        omega
      · rw [if_neg h0] at hcount1
        omega
    have hcountP := mergeAdjAux_countP (group_photos_by_year photos) 1 p ks
      k0 k0 (dlookup k0 (group_photos_by_year photos)) hmix hcount'
    have hmain : (merge_adjacent_groups (group_photos_by_year photos) 1).countP
        (fun t => decide (p ∈ t.2.2)) = 1 := by
      rw [hmerged, hcountP]
      by_cases h0 : p ∈ dlookup k0 (group_photos_by_year photos)
      · rw [if_pos h0] at hcount1 ⊢
        omega
      · rw [if_neg h0] at hcount1 ⊢
        omega
    refine ⟨exists_unique_of_countP_eq_one hmain, ?_⟩
    intro t ht hq
    have hchain : List.Chain' (· ≤ ·) (k0 :: ks) :=
      List.chain'_iff_pairwise.mpr hsorted
    have hrange := mergeAdjAux_range (group_photos_by_year photos) 1
      (fun q => (q.capture_date.map CDate.year).getD 0)
      (by
        intro k q hqk
        show (Option.map CDate.year q.capture_date).getD 0 = k
        rw [hkeyq k q hqk]
        rfl)
      ks k0 k0 (dlookup k0 (group_photos_by_year photos)) hchain (le_refl k0)
      (by
        intro q hq'
        show k0 ≤ (Option.map CDate.year q.capture_date).getD 0 ∧
          (Option.map CDate.year q.capture_date).getD 0 ≤ k0
        rw [hkeyq k0 q hq']
        exact ⟨le_refl k0, le_refl k0⟩)
      t (hmerged ▸ ht) p hq
    simpa [hcd] using hrange

theorem age_dict_lookup (photos : List PhotoRec) (birth : CDate) (a : Int) :
    dlookup a (group_photos_by_age photos birth) =
      photos.filter (fun q =>
        decide (q.capture_date.map (calculate_age birth) = some a)) := by
  rw [group_photos_by_age]
  rw [dlookup_foldl_extend (fun q => q.capture_date.map (calculate_age birth))
    (fun q => [q]) _ (fun d q => by cases hq : q.capture_date <;> simp [hq])
    photos [] a]
  rw [show dlookup a ([] : List (Int × List PhotoRec)) = [] from rfl,
    List.nil_append, flatten_map_singleton]

theorem age_dict_keys_nodup (photos : List PhotoRec) (birth : CDate) :
    ((group_photos_by_age photos birth).map (fun g => g.1)).Nodup := by
  rw [group_photos_by_age]
  exact nodup_keys_foldl (fun q => q.capture_date.map (calculate_age birth))
    (fun q => [q]) _ (fun d q => by cases hq : q.capture_date <;> simp [hq])
    photos [] List.nodup_nil

theorem phase_dict_lookup (photos : List PhotoRec) (birth : CDate)
    (k : Nat × Nat) :
    dlookup k (life_phase_groups (group_photos_by_age photos birth)) =
      (((group_photos_by_age photos birth).filter
        (fun g => decide (find_phase_key g.1 = some k))).map
          (fun g => g.2)).flatten := by
  rw [life_phase_groups]
  rw [dlookup_foldl_extend (fun g : Int × List PhotoRec => find_phase_key g.1)
    (fun g : Int × List PhotoRec => g.2)
    (fun d g =>
      match find_phase_key g.1 with
      | some k => dextend k g.2 d
      | none => d)
    (fun d g => by cases hfk : find_phase_key g.1 <;> simp [hfk])
    (group_photos_by_age photos birth) [] k]
  rw [show dlookup k ([] : List ((Nat × Nat) × List PhotoRec)) = [] from rfl,
    List.nil_append]

theorem phase_dict_keys_nodup (photos : List PhotoRec) (birth : CDate) :
    ((life_phase_groups (group_photos_by_age photos birth)).map
      (fun g => g.1)).Nodup := by
  rw [life_phase_groups]
  exact nodup_keys_foldl (fun g : Int × List PhotoRec => find_phase_key g.1)
    (fun g : Int × List PhotoRec => g.2)
    (fun d g =>
      match find_phase_key g.1 with
      | some k => dextend k g.2 d
      | none => d)
    (fun d g => by cases hfk : find_phase_key g.1 <;> simp [hfk])
    (group_photos_by_age photos birth) [] List.nodup_nil

/-- A dated photo sits in the life-phase group `k` exactly when `k` is the
phase of its age. -/
theorem mem_phase_dict (photos : List PhotoRec) (birth : CDate) (p : PhotoRec)
    (cd : CDate) (hp : p ∈ photos) (hcd : p.capture_date = some cd)
    (k : Nat × Nat) :
    p ∈ dlookup k (life_phase_groups (group_photos_by_age photos birth)) ↔
      find_phase_key (calculate_age birth cd) = some k := by
  rw [phase_dict_lookup]
  constructor
  · intro h
    rcases List.mem_flatten.mp h with ⟨l, hl, hpl⟩
    rcases List.mem_map.mp hl with ⟨g, hgf, rfl⟩
    have hgmem := List.mem_of_mem_filter hgf
    have hgpred := List.of_mem_filter hgf
    obtain ⟨a, glist⟩ := g
    have hglook : dlookup a (group_photos_by_age photos birth) = glist :=
      mem_dict_dlookup _ (age_dict_keys_nodup photos birth) a glist hgmem
    have hpin : p ∈ dlookup a (group_photos_by_age photos birth) := by
      rw [hglook]
      exact hpl
    rw [age_dict_lookup] at hpin
    have hkey := List.of_mem_filter hpin
    simp only [decide_eq_true_eq, hcd, Option.map_some'] at hkey
    have ha : calculate_age birth cd = a := Option.some.inj hkey
    simp only [decide_eq_true_eq] at hgpred
    rw [ha]
    exact hgpred
  · intro hk
    have hpin : p ∈ dlookup (calculate_age birth cd)
        (group_photos_by_age photos birth) := by
      rw [age_dict_lookup]
      exact List.mem_filter.mpr ⟨hp, by simp [hcd]⟩
    have hne : dlookup (calculate_age birth cd)
        (group_photos_by_age photos birth) ≠ [] := by
      intro h
      rw [h] at hpin
      exact List.not_mem_nil p hpin
    refine List.mem_flatten.mpr
      ⟨dlookup (calculate_age birth cd) (group_photos_by_age photos birth),
        ?_, hpin⟩
    refine List.mem_map.mpr
      ⟨(calculate_age birth cd,
        dlookup (calculate_age birth cd) (group_photos_by_age photos birth)),
        ?_, rfl⟩
    exact List.mem_filter.mpr ⟨dlookup_mem _ _ hne, by simp [hk]⟩

/-- Bounds carried by a successful life-phase lookup. -/
theorem find_phase_key_bounds (age : Int) (k : Nat × Nat)
    (hfk : find_phase_key age = some k) :
    (k.1 : Int) ≤ age ∧ age ≤ (k.2 : Int) := by
  rw [find_phase_key] at hfk
  rcases Option.map_eq_some'.mp hfk with ⟨ph, hph, hph1⟩
  have := List.find?_some hph
  simp only [decide_eq_true_eq] at this
  rw [← hph1]
  exact this

/-- Age-path core of C2: a dated photo whose age lies in the life-phase
table lands in exactly one merged phase group, whose band contains its
age. -/
theorem age_path_assignment (photos : List PhotoRec) (birth : CDate)
    (p : PhotoRec) (cd : CDate) (hp : p ∈ photos)
    (hcd : p.capture_date = some cd) (k0 : Nat × Nat)
    (hk : find_phase_key (calculate_age birth cd) = some k0) :
    (∃! t : (Nat × Nat) × List PhotoRec,
      t ∈ age_merged_chapters photos birth ∧ p ∈ t.2) ∧
    (∀ t : (Nat × Nat) × List PhotoRec,
      t ∈ age_merged_chapters photos birth → p ∈ t.2 →
      (t.1.1 : Int) ≤ calculate_age birth cd ∧
        calculate_age birth cd ≤ (t.1.2 : Int)) := by
  have hperm : (age_merged_chapters photos birth).Perm
      (life_phase_groups (group_photos_by_age photos birth)) := by
    rw [age_merged_chapters, sort_phase_groups]
    exact List.perm_insertionSort _ _
  have hpk0 : p ∈ dlookup k0
      (life_phase_groups (group_photos_by_age photos birth)) :=
    (mem_phase_dict photos birth p cd hp hcd k0).mpr hk
  have hne : dlookup k0 (life_phase_groups (group_photos_by_age photos birth)) ≠
      [] := by
    intro h
    rw [h] at hpk0
    exact List.not_mem_nil p hpk0
  have hmem0 : (k0, dlookup k0
      (life_phase_groups (group_photos_by_age photos birth))) ∈
      age_merged_chapters photos birth := by
    rw [hperm.mem_iff]
    exact dlookup_mem _ _ hne
  have huniq : ∀ t : (Nat × Nat) × List PhotoRec,
      t ∈ age_merged_chapters photos birth → p ∈ t.2 →
      t = (k0, dlookup k0
        (life_phase_groups (group_photos_by_age photos birth))) := by
    intro t ht hpt
    rw [hperm.mem_iff] at ht
    obtain ⟨kt, gt⟩ := t
    have hgt : dlookup kt (life_phase_groups
        (group_photos_by_age photos birth)) = gt :=
      mem_dict_dlookup _ (phase_dict_keys_nodup photos birth) kt gt ht
    have hpin : p ∈ dlookup kt
        (life_phase_groups (group_photos_by_age photos birth)) := by
      rw [hgt]
      exact hpt
    have hkt := (mem_phase_dict photos birth p cd hp hcd kt).mp hpin
    have : kt = k0 := Option.some.inj (hkt.symm.trans hk)
    subst this
    rw [← hgt]
  refine ⟨⟨(k0, dlookup k0
      (life_phase_groups (group_photos_by_age photos birth))),
      ⟨hmem0, hpk0⟩, fun t ht => huniq t ht.1 ht.2⟩, ?_⟩
  intro t ht hpt
  have := huniq t ht hpt
  rw [this]
  exact find_phase_key_bounds (calculate_age birth cd) k0 hk

theorem age_chapters_map_eq (user : UserRec) (photos : List PhotoRec)
    (dbD : List Nat → Option String) (birth : CDate)
    (hb : user.birth_date = some birth) :
    (generate_age_based_chapters user photos dbD).map
        (fun c => (c.age_start, c.age_end, c.photo_count)) =
      (age_merged_chapters photos birth).map
        (fun t => (some (t.1.1 : Int), some (t.1.2 : Int), t.2.length)) := by
  rw [generate_age_based_chapters, hb]
  dsimp only
  rw [show (age_merged_chapters photos birth).enum =
    List.enumFrom 0 (age_merged_chapters photos birth) from rfl]
  exact enumFrom_map_proj _ _ _ (fun i a => rfl) _ 0

theorem year_chapters_map_eq (user : UserRec) (photos : List PhotoRec)
    (dbD : List Nat → Option String) :
    (generate_year_based_chapters user photos dbD).map
        (fun c => (c.year_start, c.year_end, c.photo_count)) =
      (merge_adjacent_groups (group_photos_by_year photos) 1).map
        (fun t => (some t.1, some t.2.1, t.2.2.length)) := by
  rw [generate_year_based_chapters]
  rw [show (merge_adjacent_groups (group_photos_by_year photos) 1).enum =
    List.enumFrom 0 (merge_adjacent_groups (group_photos_by_year photos) 1)
    from rfl]
  exact enumFrom_map_proj _ _ _ (fun i a => rfl) _ 0

/-- C2 (counterexample): a photo with a non-null capture date taken before
the user's birth has a negative computed age, which lies in no life-phase
band, so the age-based generator assigns it to no chapter at all — not to
exactly one. -/
theorem age_out_of_table_photo_unassigned :
    (⟨1, some ⟨1980, 6, 1⟩, none⟩ : PhotoRec).capture_date ≠ none ∧
    generate_age_based_chapters ⟨1, some ⟨1990, 1, 1⟩⟩
      [⟨1, some ⟨1980, 6, 1⟩, none⟩] (fun _ => none) = [] ∧
    age_merged_chapters [⟨1, some ⟨1980, 6, 1⟩, none⟩] ⟨1990, 1, 1⟩ = [] := by
  decide

/-- C2 (amended: in the age-based path only photos whose computed age falls
inside the life-phase table are assigned; out-of-table ages are silently
dropped): every photo with a non-null capture date belongs to exactly one
merged chapter group — in the age path (when its age is in the table) the
group's age band contains its computed age, in the year path the group's
year range contains its capture year — and each group becomes exactly one
chapter record with the matching band and photo count. -/
theorem chapter_assignment_unique_in_range (user : UserRec)
    (photos : List PhotoRec) (dbD : List Nat → Option String) (p : PhotoRec)
    (cd : CDate) (hp : p ∈ photos) (hcd : p.capture_date = some cd) :
    (∀ birth, user.birth_date = some birth →
      (∀ k0 : Nat × Nat, find_phase_key (calculate_age birth cd) = some k0 →
        (∃! t : (Nat × Nat) × List PhotoRec,
          t ∈ age_merged_chapters photos birth ∧ p ∈ t.2) ∧
        (∀ t : (Nat × Nat) × List PhotoRec,
          t ∈ age_merged_chapters photos birth → p ∈ t.2 →
          (t.1.1 : Int) ≤ calculate_age birth cd ∧
            calculate_age birth cd ≤ (t.1.2 : Int))) ∧
      (generate_age_based_chapters user photos dbD).map
          (fun c => (c.age_start, c.age_end, c.photo_count)) =
        (age_merged_chapters photos birth).map
          (fun t => (some (t.1.1 : Int), some (t.1.2 : Int), t.2.length))) ∧
    ((∃! t : Int × Int × List PhotoRec,
        t ∈ merge_adjacent_groups (group_photos_by_year photos) 1 ∧
          p ∈ t.2.2) ∧
      (∀ t : Int × Int × List PhotoRec,
        t ∈ merge_adjacent_groups (group_photos_by_year photos) 1 →
        p ∈ t.2.2 → t.1 ≤ cd.year ∧ cd.year ≤ t.2.1) ∧
      (generate_year_based_chapters user photos dbD).map
          (fun c => (c.year_start, c.year_end, c.photo_count)) =
        (merge_adjacent_groups (group_photos_by_year photos) 1).map
          (fun t => (some t.1, some t.2.1, t.2.2.length))) := by
  refine ⟨?_, ?_⟩
  · intro birth hb
    refine ⟨?_, age_chapters_map_eq user photos dbD birth hb⟩
    intro k0 hk
    exact age_path_assignment photos birth p cd hp hcd k0 hk
  · obtain ⟨h1, h2⟩ := year_path_assignment photos p cd hp hcd
    exact ⟨h1, h2, year_chapters_map_eq user photos dbD⟩

/-- C2 witness: one photo captured 1995-06-01, user born 1990-01-01 (age 5,
phase band 0-5); the year path buckets it in 1995. -/
theorem chapter_assignment_unique_in_range_witness :
    (∀ birth, (⟨1, some ⟨1990, 1, 1⟩⟩ : UserRec).birth_date = some birth →
      (∀ k0 : Nat × Nat,
        find_phase_key (calculate_age birth ⟨1995, 6, 1⟩) = some k0 →
        (∃! t : (Nat × Nat) × List PhotoRec,
          t ∈ age_merged_chapters [⟨1, some ⟨1995, 6, 1⟩, none⟩] birth ∧
            (⟨1, some ⟨1995, 6, 1⟩, none⟩ : PhotoRec) ∈ t.2) ∧
        (∀ t : (Nat × Nat) × List PhotoRec,
          t ∈ age_merged_chapters [⟨1, some ⟨1995, 6, 1⟩, none⟩] birth →
          (⟨1, some ⟨1995, 6, 1⟩, none⟩ : PhotoRec) ∈ t.2 →
          (t.1.1 : Int) ≤ calculate_age birth ⟨1995, 6, 1⟩ ∧
            calculate_age birth ⟨1995, 6, 1⟩ ≤ (t.1.2 : Int))) ∧
      (generate_age_based_chapters ⟨1, some ⟨1990, 1, 1⟩⟩
          [⟨1, some ⟨1995, 6, 1⟩, none⟩] (fun _ => none)).map
          (fun c => (c.age_start, c.age_end, c.photo_count)) =
        (age_merged_chapters [⟨1, some ⟨1995, 6, 1⟩, none⟩] birth).map
          (fun t => (some (t.1.1 : Int), some (t.1.2 : Int), t.2.length))) ∧
    ((∃! t : Int × Int × List PhotoRec,
        t ∈ merge_adjacent_groups
          (group_photos_by_year [⟨1, some ⟨1995, 6, 1⟩, none⟩]) 1 ∧
          (⟨1, some ⟨1995, 6, 1⟩, none⟩ : PhotoRec) ∈ t.2.2) ∧
      (∀ t : Int × Int × List PhotoRec,
        t ∈ merge_adjacent_groups
          (group_photos_by_year [⟨1, some ⟨1995, 6, 1⟩, none⟩]) 1 →
        (⟨1, some ⟨1995, 6, 1⟩, none⟩ : PhotoRec) ∈ t.2.2 →
        t.1 ≤ (⟨1995, 6, 1⟩ : CDate).year ∧
          (⟨1995, 6, 1⟩ : CDate).year ≤ t.2.1) ∧
      (generate_year_based_chapters ⟨1, some ⟨1990, 1, 1⟩⟩
          [⟨1, some ⟨1995, 6, 1⟩, none⟩] (fun _ => none)).map
          (fun c => (c.year_start, c.year_end, c.photo_count)) =
        (merge_adjacent_groups
          (group_photos_by_year [⟨1, some ⟨1995, 6, 1⟩, none⟩]) 1).map
          (fun t => (some t.1, some t.2.1, t.2.2.length))) :=
  chapter_assignment_unique_in_range ⟨1, some ⟨1990, 1, 1⟩⟩
    [⟨1, some ⟨1995, 6, 1⟩, none⟩] (fun _ => none)
    ⟨1, some ⟨1995, 6, 1⟩, none⟩ ⟨1995, 6, 1⟩ (by decide) rfl

end PhotoStory
